import Mathlib

/-!
Verification development for the Kafka payload deserialization engine:
the payload probe chain (`deserializePayload`, `DeserializeRecord`,
`deserializeConsumerOffset` in backend/pkg/kafka/deserializer.go), the
embedded Java Object Serialization Stream parser
(backend/pkg/kafka/java_parser.go) and the Base64JavaSerde truncation
(backend/pkg/serde/base64_java.go).

Byte sequences are modelled as `List Nat` (each element a byte value
0..255).  Go strings are byte containers and are modelled the same way;
`strBytes` injects ASCII literals.  Machine integers are modelled as
`Nat`/`Int` with explicit big-endian assembly and twos-complement
reinterpretation.  External collaborators (schema registry, protobuf
descriptors, msgpack/smile/xml codec libraries, franz-go kmsg readers,
`encoding/json.Marshal` on dynamic values) are modelled as explicit
environment functions, since their code is outside this repository.
Recursive parsers are written as fuel-indexed step functions so that all
definitions stay executable by kernel reduction.
-/

set_option maxRecDepth 40000

/-- ASCII bytes of a Lean string literal (used only for ASCII text). -/
def strBytes (s : String) : List Nat := s.data.map Char.toNat

/-- Big-endian assembly of a byte list into a natural number. -/
def beNat (bs : List Nat) : Nat := bs.foldl (fun a b => a * 256 + b) 0

/-- Reinterpret an unsigned `w`-bit value as a twos-complement signed integer. -/
def toSigned (w : Nat) (n : Nat) : Int :=
  if n < 2 ^ (w - 1) then (n : Int) else (n : Int) - 2 ^ w

/-- Lowercase hex digit of a value below 16, as an ASCII byte. -/
def hexDigit (n : Nat) : Nat := if n < 10 then 48 + n else 87 + n

/-- Lowercase hex encoding of a byte list, as ASCII bytes (Go `hex.EncodeToString`). -/
def hexEncode (bs : List Nat) : List Nat :=
  bs.foldr (fun b acc => hexDigit (b / 16) :: hexDigit (b % 16) :: acc) []

/-- UTF-8 encoding of a 16-bit code unit as produced by Go `string(rune(c))`:
surrogate code points are replaced by U+FFFD. -/
def utf8Encode (c : Nat) : List Nat :=
  if 0xd800 ≤ c ∧ c ≤ 0xdfff then [0xef, 0xbf, 0xbd]
  else if c < 0x80 then [c]
  else if c < 0x800 then [0xc0 + c / 64, 0x80 + c % 64]
  else [0xe0 + c / 4096, 0x80 + (c / 64) % 64, 0x80 + c % 64]

/-- Continuation byte test for UTF-8 validation. -/
def utf8Cont (b : Nat) : Bool := 0x80 ≤ b && b ≤ 0xbf

/-- UTF-8 validity of a byte list, mirroring Go `utf8.Valid` (rejects
overlong encodings, surrogates and values above U+10FFFF). -/
def utf8Valid : List Nat → Bool
  | [] => true
  | a :: r =>
    if a ≤ 0x7f then utf8Valid r
    else if 0xc2 ≤ a && a ≤ 0xdf then
      match r with
      | b :: r2 => utf8Cont b && utf8Valid r2
      | [] => false
    else if 0xe0 ≤ a && a ≤ 0xef then
      match r with
      | b :: c :: r3 =>
        (if a = 0xe0 then 0xa0 ≤ b && b ≤ 0xbf
         else if a = 0xed then 0x80 ≤ b && b ≤ 0x9f
         else utf8Cont b) && utf8Cont c && utf8Valid r3
      | _ => false
    else if 0xf0 ≤ a && a ≤ 0xf4 then
      match r with
      | b :: c :: d :: r4 =>
        (if a = 0xf0 then 0x90 ≤ b && b ≤ 0xbf
         else if a = 0xf4 then 0x80 ≤ b && b ≤ 0x8f
         else utf8Cont b) && utf8Cont c && utf8Cont d && utf8Valid r4
      | _ => false
    else false

/-- Whitespace bytes of the cutset used by the deserializer
(`bytes.TrimLeft(payload, " \t\r\n")`), which coincides with JSON whitespace. -/
def isWsByte (b : Nat) : Bool := b = 32 || b = 9 || b = 13 || b = 10

/-- Drop leading whitespace bytes (Go `bytes.TrimLeft` with the cutset above). -/
def trimLeftWs : List Nat → List Nat
  | [] => []
  | b :: r => if isWsByte b then trimLeftWs r else b :: r

/-- ASCII decimal rendering of a natural number. -/
def natDec (n : Nat) : List Nat := strBytes (Nat.repr n)

/-- ASCII decimal rendering of an integer (Go fmt `%d`). -/
def intDec (i : Int) : List Nat :=
  if i < 0 then 45 :: natDec i.natAbs else natDec i.natAbs

theorem sanity_hexEncode : hexEncode [1, 2, 0xab] = strBytes "0102ab" := by decide
theorem sanity_trimLeftWs : trimLeftWs (strBytes "  \t x") = strBytes "x" := by decide
theorem sanity_utf8_invalid : utf8Valid [0xff] = false := by decide
theorem sanity_utf8_ascii : utf8Valid (strBytes "abc") = true := by decide
theorem sanity_utf8_twoByte : utf8Valid [0xc3, 0xa9] = true := by decide
theorem sanity_utf8_overlong : utf8Valid [0xc0, 0x80] = false := by decide
theorem sanity_intDec : intDec (-42) = strBytes "-42" := by decide

/-!
## JSON model

`encoding/json.Unmarshal` into `interface` values is modelled by a
syntactic JSON parser over bytes.  String escape sequences are validated
but kept raw (unescaping is presentational and irrelevant to the
structural-equality claims); numbers keep their lexeme.  The parser
accepts exactly one JSON document surrounded by optional whitespace,
as `json.Unmarshal` does.
-/

/-- Dynamic JSON value as produced by decoding into a Go interface value. -/
inductive Jv where
  | jnull
  | jbool (b : Bool)
  | jnum (lex : List Nat)
  | jstr (raw : List Nat)
  | jarr (xs : List Jv)
  | jobj (ms : List (List Nat × Jv))

/-- ASCII decimal digit test. -/
def isDigit (b : Nat) : Bool := 48 ≤ b && b ≤ 57

/-- ASCII hexadecimal digit test. -/
def isHexDigitB (b : Nat) : Bool :=
  (48 ≤ b && b ≤ 57) || (97 ≤ b && b ≤ 102) || (65 ≤ b && b ≤ 70)

/-- Split a byte list at the end of its leading digit run. -/
def spanDigits : List Nat → (List Nat × List Nat)
  | [] => ([], [])
  | b :: r =>
    if isDigit b then
      let p := spanDigits r
      (b :: p.1, p.2)
    else ([], b :: r)

/-- Scan an optional JSON fraction part, returning its bytes and the rest. -/
def scanFrac : List Nat → Option (List Nat × List Nat)
  | 46 :: r =>
    match spanDigits r with
    | ([], _) => none
    | (ds, rest) => some (46 :: ds, rest)
  | l => some ([], l)

/-- Scan the sign and digits after an exponent marker byte `e`. -/
def scanExpSign (e : Nat) (r : List Nat) : Option (List Nat × List Nat) :=
  let p := match r with
    | 43 :: r2 => ([43], r2)
    | 45 :: r2 => ([45], r2)
    | _ => (([] : List Nat), r)
  match spanDigits p.2 with
  | ([], _) => none
  | (ds, rest) => some (e :: p.1 ++ ds, rest)

/-- Scan an optional JSON exponent part, returning its bytes and the rest. -/
def scanExp (l : List Nat) : Option (List Nat × List Nat) :=
  match l with
  | 101 :: r => scanExpSign 101 r
  | 69 :: r => scanExpSign 69 r
  | _ => some ([], l)

/-- Scan a JSON number, returning its lexeme and the rest of the input. -/
def scanNumber (l : List Nat) : Option (List Nat × List Nat) :=
  let p := match l with
    | 45 :: r => ([45], r)
    | _ => (([] : List Nat), l)
  match p.2 with
  | 48 :: r =>
    match scanFrac r with
    | none => none
    | some (fr, r2) =>
      match scanExp r2 with
      | none => none
      | some (ex, r3) => some (p.1 ++ 48 :: fr ++ ex, r3)
  | b :: r =>
    if isDigit b then
      match spanDigits r with
      | (ds, r1) =>
        match scanFrac r1 with
        | none => none
        | some (fr, r2) =>
          match scanExp r2 with
          | none => none
          | some (ex, r3) => some (p.1 ++ b :: ds ++ fr ++ ex, r3)
    else none
  | [] => none

/-- Parsing modes of the JSON step function. -/
inductive JReq where
  | val
  | str (acc : List Nat)
  | arrElems (acc : List Jv)
  | arrRest (acc : List Jv)
  | objMembers (acc : List (List Nat × Jv))
  | objPair (acc : List (List Nat × Jv))
  | objRest (acc : List (List Nat × Jv))

/-- Fuel-indexed JSON parsing step function.  Returns the parsed value and
the unconsumed rest of the input.  Any two consecutive steps consume at
least one input byte, so fuel linear in the input length is sufficient. -/
def jrun : Nat → JReq → List Nat → Option (Jv × List Nat)
  | 0, _, _ => none
  | f + 1, .val, input =>
    match trimLeftWs input with
    | 110 :: 117 :: 108 :: 108 :: r => some (.jnull, r)
    | 116 :: 114 :: 117 :: 101 :: r => some (.jbool true, r)
    | 102 :: 97 :: 108 :: 115 :: 101 :: r => some (.jbool false, r)
    | 34 :: r => jrun f (.str []) r
    | 91 :: r => jrun f (.arrElems []) r
    | 123 :: r => jrun f (.objMembers []) r
    | l =>
      match scanNumber l with
      | some (lex, rest) => some (.jnum lex, rest)
      | none => none
  | f + 1, .str acc, input =>
    match input with
    | [] => none
    | 34 :: r => some (.jstr acc.reverse, r)
    | 92 :: e :: r =>
      if e = 34 || e = 92 || e = 47 || e = 98 || e = 102 || e = 110 || e = 114 || e = 116 then
        jrun f (.str (e :: 92 :: acc)) r
      else if e = 117 then
        match r with
        | h1 :: h2 :: h3 :: h4 :: r2 =>
          if isHexDigitB h1 && isHexDigitB h2 && isHexDigitB h3 && isHexDigitB h4 then
            jrun f (.str (h4 :: h3 :: h2 :: h1 :: 117 :: 92 :: acc)) r2
          else none
        | _ => none
      else none
    | b :: r => if b < 0x20 then none else jrun f (.str (b :: acc)) r
  | f + 1, .arrElems acc, input =>
    match trimLeftWs input with
    | 93 :: r => some (.jarr acc.reverse, r)
    | l =>
      match jrun f .val l with
      | some (v, rest) => jrun f (.arrRest (v :: acc)) rest
      | none => none
  | f + 1, .arrRest acc, input =>
    match trimLeftWs input with
    | 93 :: r => some (.jarr acc.reverse, r)
    | 44 :: r =>
      match jrun f .val r with
      | some (v, rest) => jrun f (.arrRest (v :: acc)) rest
      | none => none
    | _ => none
  | f + 1, .objMembers acc, input =>
    match trimLeftWs input with
    | 125 :: r => some (.jobj acc.reverse, r)
    | l => jrun f (.objPair acc) l
  | f + 1, .objPair acc, input =>
    match trimLeftWs input with
    | 34 :: r =>
      match jrun f (.str []) r with
      | some (.jstr k, rest) =>
        match trimLeftWs rest with
        | 58 :: r2 =>
          match jrun f .val r2 with
          | some (v, rest2) => jrun f (.objRest ((k, v) :: acc)) rest2
          | none => none
        | _ => none
      | _ => none
    | _ => none
  | f + 1, .objRest acc, input =>
    match trimLeftWs input with
    | 125 :: r => some (.jobj acc.reverse, r)
    | 44 :: r => jrun f (.objPair acc) r
    | _ => none

/-- Model of `json.Unmarshal(bs, &obj)`: parse exactly one JSON document,
allowing surrounding whitespace.  The fuel depends only on the
left-trimmed input, which makes the parser invariant under left-trimming. -/
def jsonParse (bs : List Nat) : Option Jv :=
  match jrun (2 * (trimLeftWs bs).length + 8) .val bs with
  | some (v, rest) => if trimLeftWs rest = [] then some v else none
  | none => none

theorem sanity_json_num : jsonParse (strBytes "123") = some (.jnum (strBytes "123")) := rfl
theorem sanity_json_arr : jsonParse (91 :: strBytes "1, 2" ++ [93]) =
    some (.jarr [.jnum [49], .jnum [50]]) := rfl
theorem sanity_json_obj : jsonParse ([123] ++ [34, 97, 34, 58, 49] ++ [125]) =
    some (.jobj [([97], .jnum [49])]) := rfl
theorem sanity_json_trunc : jsonParse (strBytes "tru") = none := rfl
theorem sanity_json_null : jsonParse (strBytes " null ") = some .jnull := rfl
theorem sanity_json_trailing : jsonParse (strBytes "1 2") = none := rfl

/-!
## Java Object Serialization Stream parser model

Shallow embedding of backend/pkg/kafka/java_parser.go.  Go `interface`
values flowing through the parser are modelled by the closed sum `JValue`;
`*clazz` pointers by `Clazz` values.  Pointer sharing is modelled by the
handle table: a class descriptor handle slot is registered when the
serialVersionUID has been read and receives the completed descriptor when
the descriptor parse finishes (in Go the slot holds one pointer whose
target is completed in place).  The parser state is the remaining input
and the handle table; the configured maximum data block size is the
constructor option of the Go parser and is passed as a parameter.
-/

mutual
/-- Dynamic value produced by the Java stream parser (Go `interface`). -/
inductive JValue where
  | vnull
  | vbool (b : Bool)
  | vi8 (n : Int)
  | vi16 (n : Int)
  | vi32 (n : Int)
  | vi64 (n : Int)
  | vf32 (bits : Nat)
  | vf64 (bits : Nat)
  | vstr (s : List Nat)
  | vbytes (b : List Nat)
  | varr (xs : List JValue)
  | vmap (m : List (List Nat × JValue))
  | vclazz (c : Clazz)
  | vend

/-- Java class descriptor (Go `clazz`).  Field order matches the wire order
in which the components are read. -/
inductive Clazz where
  | mk (name : List Nat) (serialVersionUID : List Nat) (flags : Nat)
      (isEnum : Bool) (fields : List JField) (annotations : List JValue)
      (super : Option Clazz)

/-- Descriptor of a single class member (Go `field`). -/
inductive JField where
  | mk (typeName : List Nat) (name : List Nat) (className : List Nat)
end

def Clazz.name : Clazz → List Nat
  | .mk n _ _ _ _ _ _ => n

def Clazz.serialVersionUID : Clazz → List Nat
  | .mk _ u _ _ _ _ _ => u

def Clazz.flags : Clazz → Nat
  | .mk _ _ f _ _ _ _ => f

def Clazz.isEnum : Clazz → Bool
  | .mk _ _ _ e _ _ _ => e

def Clazz.fields : Clazz → List JField
  | .mk _ _ _ _ fs _ _ => fs

def Clazz.annotations : Clazz → List JValue
  | .mk _ _ _ _ _ a _ => a

def Clazz.super : Clazz → Option Clazz
  | .mk _ _ _ _ _ _ s => s

def JField.typeName : JField → List Nat
  | .mk t _ _ => t

def JField.name : JField → List Nat
  | .mk _ n _ => n

def JField.className : JField → List Nat
  | .mk _ _ c => c

/-- String-keyed association map mirroring a Go `map` of string to value,
with deterministic (insertion) order. -/
abbrev JMap := List (List Nat × JValue)

/-- Lookup in a `JMap` (Go map indexing; `none` when the key is absent). -/
def mapGet (m : JMap) (k : List Nat) : Option JValue :=
  match m with
  | [] => none
  | (k2, v) :: r => if k2 = k then some v else mapGet r k

/-- Insert or overwrite in a `JMap` (Go map assignment). -/
def mapSet (m : JMap) (k : List Nat) (v : JValue) : JMap :=
  match m with
  | [] => [(k, v)]
  | (k2, v2) :: r => if k2 = k then (k2, v) :: r else (k2, v2) :: mapSet r k v

/-- Remove a key from a `JMap` (Go `delete`). -/
def mapDel (m : JMap) (k : List Nat) : JMap :=
  match m with
  | [] => []
  | (k2, v2) :: r => if k2 = k then mapDel r k else (k2, v2) :: mapDel r k

/-- Parse error: the message and whether the root cause is `io.EOF`
(`errors.Cause` tracking, needed for the premature-end rewrite). -/
structure PErr where
  eof : Bool
  msg : String

/-- Error context wrapping (`errors.Wrap`): prepend context, keep the cause. -/
def errWrap (ctx : String) (e : PErr) : PErr :=
  { e with msg := ctx ++ ": " ++ e.msg }

/-- Parser state: the remaining input bytes and the handle table.  A handle
slot holding `none` is reserved but not yet filled (a deferred handle). -/
structure PState where
  input : List Nat
  handles : List (Option JValue)

/-- Read `n` bytes from the front of the input.  A short read is an EOF
style failure (the `eof` flag records whether nothing at all was left,
mirroring `io.EOF` versus `io.ErrUnexpectedEOF` causes). -/
def takeN (n : Nat) (m : String) (s : PState) : Except PErr (List Nat × PState) :=
  if n ≤ s.input.length then
    .ok (s.input.take n, { s with input := s.input.drop n })
  else .error { eof := s.input.isEmpty, msg := m }

/-- Read an `n`-byte big-endian unsigned value. -/
def readBE (n : Nat) (m : String) (s : PState) : Except PErr (Nat × PState) :=
  match takeN n m s with
  | .ok (bs, s1) => .ok (beNat bs, s1)
  | .error e => .error e

def readUInt8 (s : PState) : Except PErr (Nat × PState) :=
  readBE 1 "error reading uint8" s

def readInt8 (s : PState) : Except PErr (Int × PState) :=
  match readBE 1 "error reading int8" s with
  | .ok (n, s1) => .ok (toSigned 8 n, s1)
  | .error e => .error e

def readUInt16 (s : PState) : Except PErr (Nat × PState) :=
  readBE 2 "error reading uint16" s

def readInt16 (s : PState) : Except PErr (Int × PState) :=
  match readBE 2 "error reading int16" s with
  | .ok (n, s1) => .ok (toSigned 16 n, s1)
  | .error e => .error e

def readUInt32 (s : PState) : Except PErr (Nat × PState) :=
  readBE 4 "error reading uint32" s

def readInt32 (s : PState) : Except PErr (Int × PState) :=
  match readBE 4 "error reading int32" s with
  | .ok (n, s1) => .ok (toSigned 32 n, s1)
  | .error e => .error e

def readInt64 (s : PState) : Except PErr (Int × PState) :=
  match readBE 8 "error reading int64" s with
  | .ok (n, s1) => .ok (toSigned 64 n, s1)
  | .error e => .error e

/-- Error message of the oversized-block guard (verbatim from the source). -/
def blockSizeMsg : String :=
  "block data exceeds size of reader buffer. To increase the size, use the method SetMaxDataBlockSize or use bufio.Reader with a larger buffer size"

/-- Read a string of `cnt` bytes (`readString`): lengths above the
configured maximum block size fail before any read is attempted. -/
def readString (maxBlock : Nat) (cnt : Nat) (asHex : Bool) (s : PState) :
    Except PErr (List Nat × PState) :=
  if cnt > maxBlock then .error { eof := false, msg := blockSizeMsg }
  else
    match takeN cnt "error reading string" s with
    | .ok (bs, s1) => .ok (if asHex then hexEncode bs else bs, s1)
    | .error e => .error e

/-- Read a `uint16` length-prefixed string (`utf`). -/
def utf (maxBlock : Nat) (s : PState) : Except PErr (List Nat × PState) :=
  match readUInt16 s with
  | .error e => .error (errWrap "error reading utf: unable to read segment length" e)
  | .ok (n, s1) =>
    match readString maxBlock n false s1 with
    | .error e => .error (errWrap "error reading utf: unable to read segment" e)
    | .ok r => .ok r

/-- Read a `uint64` length-prefixed string (`utfLong`); lengths at or above
2^32 are rejected. -/
def utfLong (maxBlock : Nat) (s : PState) : Except PErr (List Nat × PState) :=
  match readUInt32 s with
  | .error e => .error (errWrap "error reading utf: unable to read first segment length" e)
  | .ok (hi, s1) =>
    if hi ≠ 0 then .error { eof := false, msg := "unable to read string larger than 2^32 bytes" }
    else
      match readUInt32 s1 with
      | .error e => .error (errWrap "error reading utf long: unable to read second segment length" e)
      | .ok (n, s2) =>
        match readString maxBlock n false s2 with
        | .error e => .error (errWrap "error reading utf long: unable to read segment" e)
        | .ok r => .ok r

/-- Check the STREAM_MAGIC value 0xACED (`magic`). -/
def magicStep (s : PState) : Except PErr PState :=
  match readUInt16 s with
  | .error e => .error e
  | .ok (v, s1) =>
    if v ≠ 0xaced then .error { eof := false, msg := "magic value STREAM_MAGIC not found" }
    else .ok s1

/-- Check the protocol version 5 (`version`). -/
def versionStep (s : PState) : Except PErr PState :=
  match readUInt16 s with
  | .error e => .error e
  | .ok (v, s1) =>
    if v ≠ 5 then
      .error { eof := false
               msg := "protocol version not recognized: wanted 5 got " ++ Nat.repr v }
    else .ok s1

/-- Key under which a post-processed object stores its collapsed value. -/
def OBJECT_VALUE_NAME : List Nat := strBytes "@@value@@"

/-- The cycle sentinel returned for a reference to a reserved, unfilled slot. -/
def cycleMarker : List Nat := strBytes "[CYCLE]"

/-- All known type names, indexed by tag byte minus `TYPE_MASK` (0x70). -/
def typeNames : List String :=
  ["Null", "Reference", "ClassDesc", "Object", "String", "Array", "Class",
   "BlockData", "EndBlockData", "Reset", "BlockDataLong", "Exception",
   "LongString", "ProxyClassDesc", "Enum"]

/-- Names allowed while parsing a class descriptor (`allowedClazzNames`). -/
def allowedClazzNames : List String :=
  ["ClassDesc", "ProxyClassDesc", "Null", "Reference"]

/-- View a byte list as a Go string for error-message formatting. -/
def bytesToString (bs : List Nat) : String :=
  String.mk (bs.map (fun b => Char.ofNat b))

/-- Decimal rendering of an integer as a Lean string (Go fmt `%d`). -/
def intStr (i : Int) : String :=
  if i < 0 then "-" ++ Nat.repr i.natAbs else Nat.repr i.natAbs

/-- Zero-padded decimal rendering (ASCII bytes) used by the timestamp layout. -/
def padDec (width : Nat) (n : Nat) : List Nat :=
  let ds := natDec n
  List.replicate (width - ds.length) 48 ++ ds

/-- Civil-calendar rendering of a millisecond Unix timestamp in the layout
02/01/2006 15:04:05.000.  The Go code formats `time.Unix` values in the
local time zone of the host; the reference zone UTC is used here since the
host zone is not part of the program. -/
def formatTimestamp (ms : Int) : List Nat :=
  let sec := ms.ediv 1000
  let msPart := (ms.emod 1000).toNat
  let days := sec.ediv 86400
  let sod := (sec.emod 86400).toNat
  let z := days + 719468
  let era := z.ediv 146097
  let doe := (z.emod 146097).toNat
  let yoe := (doe - doe / 1460 + doe / 36524 - doe / 146096) / 365
  let doy := doe - (365 * yoe + yoe / 4 - yoe / 100)
  let mp := (5 * doy + 2) / 153
  let d := doy - (153 * mp + 2) / 5 + 1
  let m := if mp < 10 then mp + 3 else mp - 9
  let y : Int := (yoe : Int) + era * 400 + (if m ≤ 2 then 1 else 0)
  let yBytes := if 0 ≤ y ∧ y < 10000 then padDec 4 y.toNat else intDec y
  padDec 2 d ++ [47] ++ padDec 2 m ++ [47] ++ yBytes ++ [32] ++
    padDec 2 (sod / 3600) ++ [58] ++ padDec 2 (sod / 60 % 60) ++ [58] ++
    padDec 2 (sod % 60) ++ [46] ++ padDec 3 msPart

/-- Model of Go `fmt.Sprint` on parser values, used to build map keys in
the map post-processors.  Scalars are rendered faithfully; the rendering
of floats and of composite values is presentational and only marked. -/
def sprintVal (v : JValue) : List Nat :=
  match v with
  | .vnull => strBytes "<nil>"
  | .vbool b => if b then strBytes "true" else strBytes "false"
  | .vi8 n => intDec n
  | .vi16 n => intDec n
  | .vi32 n => intDec n
  | .vi64 n => intDec n
  | .vf32 bits => strBytes "0x" ++ hexEncode [bits / 16777216 % 256, bits / 65536 % 256, bits / 256 % 256, bits % 256]
  | .vf64 bits => strBytes "0x" ++ natDec bits
  | .vstr s => s
  | .vbytes bs => [91] ++ List.intercalate [32] (bs.map natDec) ++ [93]
  | .varr _ => strBytes "[...]"
  | .vmap _ => strBytes "map[...]"
  | .vclazz _ => strBytes "&..."
  | .vend => strBytes "endBlock"

/-- Tags of the known post-processing strategies (`KnownPostProcs` values). -/
inductive PostProcTag where
  | primObject
  | listProc
  | mapProc
  | enumMapProc
  | hashSetProc
  | dateProc
  | calendarProc
  | arraysListProc

/-- The `KnownPostProcs` table: object signature to post-processor. -/
def knownPostProcs : List (List Nat × PostProcTag) :=
  [(strBytes "java.lang.Byte@9c4e6084ee50f51c", .primObject),
   (strBytes "java.lang.Character@348b47d96b1a2678", .primObject),
   (strBytes "java.lang.Double@80b3c24a296bfb04", .primObject),
   (strBytes "java.lang.Float@daedc9a2db3cf0ec", .primObject),
   (strBytes "java.lang.Integer@12e2a0a4f7818738", .primObject),
   (strBytes "java.lang.Long@3b8be490cc8f23df", .primObject),
   (strBytes "java.lang.Short@684d37133460da52", .primObject),
   (strBytes "java.lang.Boolean@cd207280d59cfaee", .primObject),
   (strBytes "java.util.ArrayList@7881d21d99c7619d", .listProc),
   (strBytes "java.util.ArrayDeque@207cda2e240da08b", .listProc),
   (strBytes "java.util.Hashtable@13bb0f25214ae4b8", .mapProc),
   (strBytes "java.util.HashMap@0507dac1c31660d1", .mapProc),
   (strBytes "java.util.EnumMap@065d7df7be907ca1", .enumMapProc),
   (strBytes "java.util.HashSet@ba44859596b8b734", .hashSetProc),
   (strBytes "java.util.Date@686a81014b597419", .dateProc),
   (strBytes "java.util.Calendar@e6ea4d1ec8dc5b8e", .calendarProc),
   (strBytes "java.util.Arrays$ArrayList@d9a43cbecd8806d2", .arraysListProc),
   (strBytes "java.util.concurrent.CopyOnWriteArrayList@785d9fd546ab90c3", .listProc)]

/-- Lookup in the post-processor table. -/
def lookupPostProc (key : List Nat) : Option PostProcTag :=
  match knownPostProcs.find? (fun kv => kv.1 = key) with
  | some kv => some kv.2
  | none => none

/-- Read the object size as an int32 from the first data element
(`postProcSize`). -/
def postProcSize (data : List JValue) (offset : Nat) : Except PErr Int :=
  match data with
  | [] => .error { eof := false, msg := "invalid data: at least one element required" }
  | d0 :: _ =>
    match d0 with
    | .vbytes b =>
      if b.length < offset + 4 then
        .error { eof := false
                 msg := "incorrect data at position 0: wanted at least " ++
                   Nat.repr (offset + 4) ++ " bytes, got " ++ Nat.repr b.length }
      else .ok (toSigned 32 (beNat ((b.drop offset).take 4)))
    | _ => .error { eof := false, msg := "unexpected data at position 0" }

/-- Build the key/value map of `mapPostProc` from alternating data entries. -/
def mapPairs (data : List JValue) : Nat → Nat → JMap → JMap
  | 0, _, acc => acc
  | n + 1, i, acc =>
    mapPairs data n (i + 1)
      (mapSet acc (sprintVal ((data.drop (2 * i + 1)).headD .vnull))
        ((data.drop (2 * i + 2)).headD .vnull))

/-- Error for a mismatched element count in a container post-processor. -/
def countErr (want : Int) (got : Int) : PErr :=
  { eof := false
    msg := "incorrect number of elements: want " ++ intStr want ++ " got " ++ intStr got }

/-- Apply a known post-processing strategy (the `PostProc` implementations). -/
def applyPostProc (tag : PostProcTag) (fields : JMap) (data : List JValue) :
    Except PErr JMap :=
  match tag with
  | .primObject =>
    .ok (mapSet fields OBJECT_VALUE_NAME ((mapGet fields (strBytes "value")).getD .vnull))
  | .listProc =>
    match postProcSize data 0 with
    | .error e => .error e
    | .ok size =>
      if (data.length : Int) ≠ size + 1 then .error (countErr size ((data.length : Int) - 1))
      else .ok (mapSet fields OBJECT_VALUE_NAME (.varr ((data.drop 1).take size.toNat)))
  | .mapProc =>
    match postProcSize data 4 with
    | .error e => .error e
    | .ok size =>
      if size * 2 + 1 > (data.length : Int) then .error (countErr size ((data.length : Int) - 1))
      else .ok (mapSet fields OBJECT_VALUE_NAME (.vmap (mapPairs data size.toNat 0 [])))
  | .enumMapProc =>
    match postProcSize data 0 with
    | .error e => .error e
    | .ok size =>
      if size * 2 + 1 > (data.length : Int) then .error (countErr size ((data.length : Int) - 1))
      else .ok (mapSet fields OBJECT_VALUE_NAME (.vmap (mapPairs data size.toNat 0 [])))
  | .hashSetProc =>
    match postProcSize data 8 with
    | .error e => .error e
    | .ok size =>
      if (data.length : Int) ≠ size + 1 then .error (countErr size ((data.length : Int) - 1))
      else .ok (mapSet fields OBJECT_VALUE_NAME (.varr ((data.drop 1).take size.toNat)))
  | .dateProc =>
    match data with
    | [] => .error { eof := false, msg := "invalid data: at least one element required" }
    | d0 :: _ =>
      match d0 with
      | .vbytes b =>
        if b.length < 8 then
          .error { eof := false
                   msg := "incorrect data at position 0: wanted 8 bytes, got " ++ Nat.repr b.length }
        else
          .ok (mapSet fields OBJECT_VALUE_NAME (.vstr (formatTimestamp (toSigned 64 (beNat (b.take 8))))))
      | _ => .error { eof := false, msg := "unexpected data at position 0" }
  | .calendarProc =>
    match mapGet fields (strBytes "time") with
    | some (.vi64 t) =>
      .ok (mapSet fields OBJECT_VALUE_NAME (.vstr (formatTimestamp t)))
    | _ => .error { eof := false, msg := "panic: interface conversion: time is not int64" }
  | .arraysListProc =>
    .ok (mapSet fields OBJECT_VALUE_NAME ((mapGet fields (strBytes "a")).getD .vnull))

/-- Internal-shape error; unreachable for the request kinds actually issued. -/
def internalErr : PErr := { eof := false, msg := "internal: unexpected parser result shape" }

/-- Append a parsed entity to the handle table (`newHandle`). -/
def newHandle (v : JValue) (s : PState) : PState :=
  { s with handles := s.handles ++ [some v] }

/-- The `parseReference` handler: read an int32 reference id, subtract the
fixed base offset `REF_ID_MASK` (0x7e0000) and index the handle table.  An
existing filled slot resolves to its value; a reserved (unfilled) slot
resolves to the cycle marker; an out-of-range index yields a null value
with no error. -/
def parseReference (s : PState) : Except PErr (JValue × PState) :=
  match readInt32 s with
  | .error e => .error (errWrap "error reading reference index" e)
  | .ok (refIdx, s1) =>
    let i : Int := refIdx - 0x7e0000
    if (-1 : Int) < i ∧ i < (s1.handles.length : Int) then
      match s1.handles.get? i.toNat with
      | some none => .ok (.vstr cycleMarker, s1)
      | some (some v) => .ok (v, s1)
      | none => .ok (.vnull, s1)
    else .ok (.vnull, s1)

/-- The `parseString` handler: a length-prefixed string, registered as a handle. -/
def parseString (maxBlock : Nat) (s : PState) : Except PErr (JValue × PState) :=
  match utf maxBlock s with
  | .error e => .error (errWrap "error parsing string" e)
  | .ok (str, s1) => .ok (.vstr str, newHandle (.vstr str) s1)

/-- The `parseLongString` handler. -/
def parseLongString (maxBlock : Nat) (s : PState) : Except PErr (JValue × PState) :=
  match utfLong maxBlock s with
  | .error e => .error (errWrap "error parsing long string" e)
  | .ok (str, s1) => .ok (.vstr str, newHandle (.vstr str) s1)

/-- The `parseBlockData` handler (uint8-length block, no maximum check). -/
def parseBlockData (s : PState) : Except PErr (JValue × PState) :=
  match readUInt8 s with
  | .error e => .error (errWrap "error parsing block data size" e)
  | .ok (size, s1) =>
    match takeN size "unexpected EOF" s1 with
    | .error e => .error e
    | .ok (data, s2) => .ok (.vbytes data, s2)

/-- The `parseBlockDataLong` handler: a uint32-length block whose declared
size is checked against the configured maximum before any read. -/
def parseBlockDataLong (maxBlock : Nat) (s : PState) : Except PErr (JValue × PState) :=
  match readUInt32 s with
  | .error e => .error (errWrap "error parsing block data long size" e)
  | .ok (size, s1) =>
    if size > maxBlock then .error { eof := false, msg := blockSizeMsg }
    else
      match takeN size "unexpected EOF" s1 with
      | .error e => .error e
      | .ok (data, s2) => .ok (.vbytes data, s2)

/-- Primitive type codes having a handler in `primitiveHandlers`. -/
def primHandlerExists (t : List Nat) : Bool :=
  t = [66] || t = [67] || t = [68] || t = [70] || t = [73] || t = [74] ||
    t = [83] || t = [90] || t = [76] || t = [91]

/-- Strip the metadata keys from an object map (the `delete` calls in
`content`). -/
def stripMeta (m : JMap) : JMap :=
  mapDel (mapDel (mapDel m (strBytes "@")) (strBytes "class")) (strBytes "extends")

/-- The value post-processing at the end of `content`: a map carrying an
`OBJECT_VALUE_NAME` entry collapses to that entry; any other map loses its
metadata keys. -/
def contentPost (value : JValue) : JValue :=
  match value with
  | .vmap m =>
    match mapGet m OBJECT_VALUE_NAME with
    | some .vnull => .vmap (stripMeta m)
    | none => .vmap (stripMeta m)
    | some w => w
  | v => v

/-- Class identity used for the `seen` set of `recursiveClassData`.  Go
keys the set by descriptor pointer; descriptor identity is modelled by the
pair of class name and serialVersionUID. -/
def seenHas (seen : List (List Nat × List Nat)) (c : Clazz) : Bool :=
  seen.contains (c.name, c.serialVersionUID)

/-- Mutually recursive parser entry points, as one fuel-indexed request
dispatcher.  Each constructor corresponds to one Go function (loop bodies
are requests carrying their accumulator). -/
inductive Req where
  | content (allowed : Option (List String))
  | anns (allowed : Option (List String)) (acc : List JValue)
  | classDesc
  | clsDescParse
  | fieldDesc
  | fieldsLoop (n : Nat) (acc : List JField)
  | valuesLoop (fields : List JField) (acc : JMap)
  | clsData (cls : Clazz)
  | recClsData (cls : Option Clazz) (obj : JMap) (seen : List (List Nat × List Nat))
  | objectParse
  | enumParse
  | arrayParse
  | arrayElems (ch : Nat) (n : Nat) (acc : List JValue)
  | classTagParse
  | prim (t : List Nat)

/-- Results of the parser entry points. -/
inductive PRet where
  | v (x : JValue)
  | c (x : Option Clazz)
  | fl (x : JField)
  | fls (xs : List JField)
  | m (x : JMap)
  | vs (xs : List JValue)

/-- Project a dispatcher result expected to carry a plain value. -/
def asV (r : Except PErr (PRet × PState)) : Except PErr (JValue × PState) :=
  match r with
  | .ok (.v x, s) => .ok (x, s)
  | .ok (_, _) => .error internalErr
  | .error e => .error e

/-- One parsing-step functional per Go parser function.  `recur` is the
knot of the mutual recursion, supplied by the fuel-indexed dispatcher
`run` below.  `mb` is the configured maximum data block size. -/
def Recur := Req → PState → Except PErr (PRet × PState)

/-- Numeric type code of a tag byte: the tag minus `TYPE_MASK` with the
wraparound of the Go uint8 subtraction. -/
def typeCodeOf (typeCodeRaw : Nat) : Nat := (typeCodeRaw + 256 - 0x70) % 256

/-- The allowed-names check of `content`. -/
def tagNotAllowed (allowed : Option (List String)) (name : String) : Bool :=
  match allowed with
  | some al => !(al.contains name)
  | none => false

/-- Dispatch on a known type name to its parser (`knownParsers`); names
with no parser are reported as not supported. -/
def dispatchTag (recur : Recur) (mb : Nat) (name : String) (s1 : PState) :
    Except PErr (JValue × PState) :=
  if name = "Enum" then asV (recur .enumParse s1)
  else if name = "BlockDataLong" then parseBlockDataLong mb s1
  else if name = "BlockData" then parseBlockData s1
  else if name = "EndBlockData" then .ok (.vend, s1)
  else if name = "ClassDesc" then asV (recur .clsDescParse s1)
  else if name = "Class" then asV (recur .classTagParse s1)
  else if name = "Array" then asV (recur .arrayParse s1)
  else if name = "LongString" then parseLongString mb s1
  else if name = "String" then parseString mb s1
  else if name = "Null" then .ok (.vnull, s1)
  else if name = "Object" then asV (recur .objectParse s1)
  else if name = "Reference" then parseReference s1
  else .error { eof := false, msg := "parsing " ++ name ++ " is currently not supported" }

/-- The `content` function: read a tag byte, validate it, dispatch, and
post-process the resulting value. -/
def contentStep (recur : Recur) (mb : Nat) (allowed : Option (List String)) (s : PState) :
    Except PErr (PRet × PState) :=
  match readUInt8 s with
  | .error e => .error e
  | .ok (typeCodeRaw, s1) =>
    if typeCodeOf typeCodeRaw > 14 then
      .error { eof := false
               msg := "unknown type 0x" ++ String.mk (Nat.toDigits 16 typeCodeRaw) }
    else if tagNotAllowed allowed (typeNames.getD (typeCodeOf typeCodeRaw) "") then
      .error { eof := false
               msg := typeNames.getD (typeCodeOf typeCodeRaw) "" ++ " not allowed here" }
    else
      match dispatchTag recur mb (typeNames.getD (typeCodeOf typeCodeRaw) "") s1 with
      | .error e => .error e
      | .ok (value, s2) => .ok (.v (contentPost value), s2)

/-- The `annotations` loop. -/
def annsStep (recur : Recur) (allowed : Option (List String)) (acc : List JValue)
    (s : PState) : Except PErr (PRet × PState) :=
  match recur (.content allowed) s with
  | .error e => .error (errWrap "error reading class annotation" e)
  | .ok (.v ann, s1) =>
    match ann with
    | .vend => .ok (.vs acc, s1)
    | _ => recur (.anns allowed (acc ++ [ann])) s1
  | .ok (_, _) => .error internalErr

/-- The `classDesc` function: read a content value restricted to the
class-descriptor names and coerce it to an optional descriptor. -/
def classDescStep (recur : Recur) (s : PState) : Except PErr (PRet × PState) :=
  match recur (.content (some allowedClazzNames)) s with
  | .error e => .error (errWrap "error reading class description" e)
  | .ok (.v x, s1) =>
    match x with
    | .vnull => .ok (.c none, s1)
    | .vclazz c => .ok (.c (some c), s1)
    | _ => .error { eof := false, msg := "unexpected type returned while reading class description" }
  | .ok (_, _) => .error internalErr

/-- The `parseClassDesc` function.  The handle slot is registered right
after the serialVersionUID is read (holding the partially built
descriptor) and receives the completed descriptor at the end, modelling
the in-place completion of the registered Go pointer.  The Go minimum
class-name-length check wraps a nil error, which yields nil, so short
names pass; this is mirrored by having no check. -/
def clsDescParseStep (recur : Recur) (mb : Nat) (s : PState) :
    Except PErr (PRet × PState) :=
  match utf mb s with
  | .error e => .error (errWrap "error reading class name" e)
  | .ok (nm, s1) =>
    match readString mb 8 true s1 with
    | .error e => .error (errWrap "error reading class serialVersionUID" e)
    | .ok (uid, s2) =>
      match readUInt8 { s2 with
          handles := s2.handles ++ [some (.vclazz (.mk nm uid 0 false [] [] none))] } with
      | .error e => .error (errWrap "error reading class flags" e)
      | .ok (flags, s4) =>
        match readUInt16 s4 with
        | .error e => .error (errWrap "error reading class field count" e)
        | .ok (fieldCount, s5) =>
          match recur (.fieldsLoop fieldCount []) s5 with
          | .error e => .error e
          | .ok (.fls fields, s6) =>
            match recur (.anns none []) s6 with
            | .error e => .error (errWrap "error reading class annotations" e)
            | .ok (.vs annsv, s7) =>
              match recur .classDesc s7 with
              | .error e => .error (errWrap "error reading class super" e)
              | .ok (.c sup, s8) =>
                let cls := Clazz.mk nm uid flags ((flags &&& 0x10) != 0) fields annsv sup
                .ok (.v (.vclazz cls),
                  { s8 with handles := s8.handles.set s2.handles.length (some (.vclazz cls)) })
              | .ok (_, _) => .error internalErr
            | .ok (_, _) => .error internalErr
          | .ok (_, _) => .error internalErr

/-- The `fieldDesc` function. -/
def fieldDescStep (recur : Recur) (mb : Nat) (s : PState) : Except PErr (PRet × PState) :=
  match readUInt8 s with
  | .error e => .error (errWrap "error reading field type" e)
  | .ok (typeDec, s1) =>
    match utf mb s1 with
    | .error e => .error (errWrap "error reading field name" e)
    | .ok (nm, s2) =>
      if typeDec = 91 || typeDec = 76 then
        match recur (.content none) s2 with
        | .error e => .error (errWrap "error reading field class name" e)
        | .ok (.v cn, s3) =>
          match cn with
          | .vstr cs => .ok (.fl (.mk [typeDec] nm cs), s3)
          | _ => .error { eof := false, msg := "unexpected field class name type" }
        | .ok (_, _) => .error internalErr
      else .ok (.fl (.mk [typeDec] nm []), s2)

/-- The field-descriptor loop of `parseClassDesc`. -/
def fieldsLoopStep (recur : Recur) (n : Nat) (acc : List JField) (s : PState) :
    Except PErr (PRet × PState) :=
  match n with
  | 0 => .ok (.fls acc, s)
  | Nat.succ n2 =>
    match recur .fieldDesc s with
    | .error e => .error (errWrap "error reading class field" e)
    | .ok (.fl fd, s1) => recur (.fieldsLoop n2 (acc ++ [fd])) s1
    | .ok (_, _) => .error internalErr

/-- The `values` loop: read each declared field with its primitive handler. -/
def valuesLoopStep (recur : Recur) (fields : List JField) (acc : JMap) (s : PState) :
    Except PErr (PRet × PState) :=
  match fields with
  | [] => .ok (.m acc, s)
  | fd :: rest =>
    if !(primHandlerExists fd.typeName) then
      .error { eof := false
               msg := "unknown field type '" ++ bytesToString fd.typeName ++ "'" }
    else
      match recur (.prim fd.typeName) s with
      | .error e => .error (errWrap "error reading primitive field value" e)
      | .ok (.v v, s1) => recur (.valuesLoop rest (mapSet acc fd.name v)) s1
      | .ok (_, _) => .error internalErr

/-- The `classData` function: field values, optional annotation block, and
the known post-processing transform keyed by the object signature. -/
def clsDataStep (recur : Recur) (cls : Clazz) (s : PState) : Except PErr (PRet × PState) :=
  if cls.flags &&& 0x0f = 0x04 then
    .error { eof := false, msg := "unable to parse version 1 external content" }
  else if !(cls.flags &&& 0x0f = 0x02 || cls.flags &&& 0x0f = 0x03 || cls.flags &&& 0x0f = 0x0c) then
    .error { eof := false
             msg := "unable to deserialize class with flags 0x" ++
               String.mk (Nat.toDigits 16 cls.flags) }
  else
    match (if cls.flags &&& 0x0f = 0x02 || cls.flags &&& 0x0f = 0x03
           then recur (.valuesLoop cls.fields []) s
           else (.ok (.m [], s) : Except PErr (PRet × PState))) with
    | .error e => .error (errWrap "error reading class data field values" e)
    | .ok (.m data0, s1) =>
      match (if cls.flags &&& 0x0f = 0x03 || cls.flags &&& 0x0f = 0x0c
             then recur (.anns none []) s1
             else (.ok (.vs [], s1) : Except PErr (PRet × PState))) with
      | .error e => .error (errWrap "error reading annotations" e)
      | .ok (.vs annsv, s2) =>
        match lookupPostProc (cls.name ++ strBytes "@" ++ cls.serialVersionUID) with
        | some tag =>
          match applyPostProc tag
              (if cls.flags &&& 0x0f = 0x03 || cls.flags &&& 0x0f = 0x0c
               then mapSet data0 (strBytes "@") (.varr annsv)
               else data0) annsv with
          | .error e => .error e
          | .ok data2 => .ok (.m data2, s2)
        | none =>
          .ok (.m (if cls.flags &&& 0x0f = 0x03 || cls.flags &&& 0x0f = 0x0c
                   then mapSet data0 (strBytes "@") (.varr annsv)
                   else data0), s2)
      | .ok (_, _) => .error internalErr
    | .ok (_, _) => .error internalErr

/-- The `recursiveClassData` function: oldest ancestor first, then this
level, recording per-class fields under `extends` and flattening them into
the object map.  Go keys the `seen` set by descriptor pointer; descriptor
identity is the pair of name and serialVersionUID here. -/
def recClsDataStep (recur : Recur) (clsO : Option Clazz) (obj : JMap)
    (seen : List (List Nat × List Nat)) (s : PState) : Except PErr (PRet × PState) :=
  match clsO with
  | none => .ok (.m obj, s)
  | some cls =>
    match (match cls.super with
           | some sup =>
             if seenHas ((cls.name, cls.serialVersionUID) :: seen) sup then
               (.ok (.m obj, s) : Except PErr (PRet × PState))
             else
               recur (.recClsData (some sup) obj
                 ((sup.name, sup.serialVersionUID) :: (cls.name, cls.serialVersionUID) :: seen)) s
           | none => .ok (.m obj, s)) with
    | .error e => .error e
    | .ok (.m obj1, s1) =>
      match mapGet obj1 (strBytes "extends") with
      | some (.vmap ext) =>
        match recur (.clsData cls) s1 with
        | .error e => .error (errWrap "error reading recursive class data" e)
        | .ok (.m fields, s2) =>
          .ok (.m (fields.foldl (fun o kv => mapSet o kv.1 kv.2)
            (mapSet obj1 (strBytes "extends") (.vmap (mapSet ext cls.name (.vmap fields))))), s2)
        | .ok (_, _) => .error internalErr
      | _ => .error { eof := false, msg := "unexpected extends value" }
    | .ok (_, _) => .error internalErr

/-- The `parseObject` function: the deferred handle slot is reserved right
after the class descriptor, before any field data is read, and filled with
the finished object map. -/
def objectStep (recur : Recur) (s : PState) : Except PErr (PRet × PState) :=
  match recur .classDesc s with
  | .error e => .error (errWrap "error reading object class" e)
  | .ok (.c clsO, s1) =>
    match recur (.recClsData clsO
        [(strBytes "class", match clsO with | some c => JValue.vclazz c | none => JValue.vnull),
         (strBytes "extends", .vmap [])] [])
        { s1 with handles := s1.handles ++ [none] } with
    | .error e => .error (errWrap "error reading recursive class data" e)
    | .ok (.m obj, s3) =>
      .ok (.v (.vmap obj), { s3 with handles := s3.handles.set s1.handles.length (some (.vmap obj)) })
    | .ok (_, _) => .error internalErr
  | .ok (_, _) => .error internalErr

/-- The `parseEnum` function, with its deferred handle slot. -/
def enumStep (recur : Recur) (s : PState) : Except PErr (PRet × PState) :=
  match recur .classDesc s with
  | .error e => .error (errWrap "error parsing enum class" e)
  | .ok (.c clsO, s1) =>
    match recur (.content none) { s1 with handles := s1.handles ++ [none] } with
    | .error e => .error (errWrap "error parsing enum constant" e)
    | .ok (.v ec, s3) =>
      let res : JMap := [(OBJECT_VALUE_NAME, ec),
        (strBytes "class", match clsO with | some c => JValue.vclazz c | none => JValue.vnull)]
      .ok (.v (.vmap res),
        { s3 with handles := s3.handles.set s1.handles.length (some (.vmap res)) })
    | .ok (_, _) => .error internalErr
  | .ok (_, _) => .error internalErr

/-- The `parseArray` function.  Go registers the result map holding only
the class, reads the size and stores it into the registered map in place;
no handle operation happens in between, so the completed map is registered
after the size read here.  The unconditional `cls.name[1]` index and the
`make` with a negative length panic in Go; the crashes are modelled as
errors. -/
def arrayStep (recur : Recur) (s : PState) : Except PErr (PRet × PState) :=
  match recur .classDesc s with
  | .error e => .error (errWrap "error parsing array class" e)
  | .ok (.c clsO, s1) =>
    match readInt32 s1 with
    | .error e => .error (errWrap "error reading array size" e)
    | .ok (size, s2) =>
      match clsO,
        newHandle (.vmap [(strBytes "class",
            match clsO with | some c => JValue.vclazz c | none => JValue.vnull),
          (strBytes "length", .vi32 size)]) s2 with
      | none, s3 => .ok (.v .vnull, s3)
      | some cls, s3 =>
        match cls.name.get? 1 with
        | none => .error { eof := false, msg := "panic: runtime error: index out of range" }
        | some ch =>
          if !(primHandlerExists [ch]) then
            .error { eof := false
                     msg := "unknown field type '" ++ bytesToString [ch] ++ "'" }
          else if size < 0 then
            .error { eof := false, msg := "panic: runtime error: makeslice: len out of range" }
          else
            match recur (.arrayElems ch size.toNat []) s3 with
            | .error e => .error e
            | .ok (.vs arr, s4) => .ok (.v (.varr arr), s4)
            | .ok (_, _) => .error internalErr
  | .ok (_, _) => .error internalErr

/-- The homogeneous element loop of `parseArray`. -/
def arrayElemsStep (recur : Recur) (ch : Nat) (n : Nat) (acc : List JValue) (s : PState) :
    Except PErr (PRet × PState) :=
  match n with
  | 0 => .ok (.vs acc, s)
  | Nat.succ n2 =>
    match recur (.prim [ch]) s with
    | .error e => .error (errWrap "error reading primitive array member" e)
    | .ok (.v v, s1) => recur (.arrayElems ch n2 (acc ++ [v])) s1
    | .ok (_, _) => .error internalErr

/-- The `parseClass` function.  Go appends the typed descriptor pointer;
for a nil descriptor this is a typed nil that resolves like a parsed null
value. -/
def classTagStep (recur : Recur) (s : PState) : Except PErr (PRet × PState) :=
  match recur .classDesc s with
  | .error e => .error (errWrap "error parsing class" e)
  | .ok (.c cd, s1) =>
    match cd with
    | some c => .ok (.v (.vclazz c), newHandle (.vclazz c) s1)
    | none => .ok (.v .vnull, newHandle .vnull s1)
  | .ok (_, _) => .error internalErr

/-- The `primitiveHandlers` table. -/
def primStep (recur : Recur) (t : List Nat) (s : PState) : Except PErr (PRet × PState) :=
  if t = [66] then
    match readInt8 s with
    | .error e => .error (errWrap "error reading byte primitive" e)
    | .ok (x, s1) => .ok (.v (.vi8 x), s1)
  else if t = [67] then
    match readUInt16 s with
    | .error e => .error (errWrap "error reading char primitive" e)
    | .ok (x, s1) => .ok (.v (.vstr (utf8Encode x)), s1)
  else if t = [68] then
    match readBE 8 "error reading float64" s with
    | .error e => .error (errWrap "error reading double primitive" e)
    | .ok (x, s1) => .ok (.v (.vf64 x), s1)
  else if t = [70] then
    match readBE 4 "error reading float32" s with
    | .error e => .error (errWrap "error reading float primitive" e)
    | .ok (x, s1) => .ok (.v (.vf32 x), s1)
  else if t = [73] then
    match readInt32 s with
    | .error e => .error (errWrap "error reading int primitive" e)
    | .ok (x, s1) => .ok (.v (.vi32 x), s1)
  else if t = [74] then
    match readInt64 s with
    | .error e => .error (errWrap "error reading long primitive" e)
    | .ok (x, s1) => .ok (.v (.vi64 x), s1)
  else if t = [83] then
    match readInt16 s with
    | .error e => .error (errWrap "error reading short primitive" e)
    | .ok (x, s1) => .ok (.v (.vi16 x), s1)
  else if t = [90] then
    match readInt8 s with
    | .error e => .error (errWrap "error reading boolean primitive" e)
    | .ok (x, s1) => .ok (.v (.vbool (x != 0)), s1)
  else if t = [76] then
    match recur (.content none) s with
    | .error e => .error (errWrap "error reading object primitive" e)
    | .ok r => .ok r
  else if t = [91] then
    match recur (.content none) s with
    | .error e => .error (errWrap "error reading array primitive" e)
    | .ok r => .ok r
  else
    .error { eof := false, msg := "unknown field type '" ++ bytesToString t ++ "'" }

/-- The fuel-indexed dispatcher tying the recursive knot of the parser.
Fuel only bounds the recursion depth of the embedding; exhaustion is
reported as an error and the top-level wrapper supplies fuel ample for any
input of the given length. -/
def run : Nat → Nat → Req → PState → Except PErr (PRet × PState)
  | 0, _, _, _ => .error { eof := false, msg := "internal: out of fuel" }
  | f + 1, mb, req, s =>
    match req with
    | .content allowed => contentStep (fun q st => run f mb q st) mb allowed s
    | .anns allowed acc => annsStep (fun q st => run f mb q st) allowed acc s
    | .classDesc => classDescStep (fun q st => run f mb q st) s
    | .clsDescParse => clsDescParseStep (fun q st => run f mb q st) mb s
    | .fieldDesc => fieldDescStep (fun q st => run f mb q st) mb s
    | .fieldsLoop n acc => fieldsLoopStep (fun q st => run f mb q st) n acc s
    | .valuesLoop fields acc => valuesLoopStep (fun q st => run f mb q st) fields acc s
    | .clsData cls => clsDataStep (fun q st => run f mb q st) cls s
    | .recClsData clsO obj seen => recClsDataStep (fun q st => run f mb q st) clsO obj seen s
    | .objectParse => objectStep (fun q st => run f mb q st) s
    | .enumParse => enumStep (fun q st => run f mb q st) s
    | .arrayParse => arrayStep (fun q st => run f mb q st) s
    | .arrayElems ch n acc => arrayElemsStep (fun q st => run f mb q st) ch n acc s
    | .classTagParse => classTagStep (fun q st => run f mb q st) s
    | .prim t => primStep (fun q st => run f mb q st) t s

/-- The `content` entry point: parse the next value in the stream. -/
def content (fuel maxBlock : Nat) (allowed : Option (List String)) (s : PState) :
    Except PErr (JValue × PState) :=
  asV (run fuel maxBlock (.content allowed) s)

/-- Fuel ample for any stream of the given length (the embedding only
needs recursion depth bounded by the work done on the input). -/
def javaParseFuel (buf : List Nat) : Nat := (buf.length + 2) * (buf.length + 2)

/-- Parse one serialized Java object from `buf` with an explicitly
configured maximum data block size, mirroring a parser built by
`NewSerializedObjectParser` with the `SetMaxDataBlockSize` option:
check the stream magic and the protocol version, read one content value,
rewrite errors caused by `io.EOF` and require the input to be consumed. -/
def ParseSerializedObjectWithMax (maxBlock : Nat) (buf : List Nat) : Except String JValue :=
  match magicStep { input := buf, handles := [] } with
  | .error e => .error e.msg
  | .ok s1 =>
    match versionStep s1 with
    | .error e => .error e.msg
    | .ok s2 =>
      match content (javaParseFuel buf) maxBlock none s2 with
      | .error e => .error (if e.eof then "premature end of input" else e.msg)
      | .ok (v, s3) =>
        if s3.input = [] then .ok v
        else .error "object already parsed but there is more data"

/-- The exported `ParseSerializedObject`, which configures the maximum
data block size to the length of the input buffer. -/
def ParseSerializedObject (buf : List Nat) : Except String JValue :=
  ParseSerializedObjectWithMax buf.length buf

/-- Synthetic stream: an object of class AA with one object field `self`
holding a back-reference to the object itself (handle 2: handle 0 is the
class descriptor, handle 1 the field type string). -/
def selfRefStream : List Nat :=
  [0xac, 0xed, 0x00, 0x05,
   0x73,
   0x72, 0x00, 0x02, 0x41, 0x41,
   1, 2, 3, 4, 5, 6, 7, 8,
   0x02,
   0x00, 0x01,
   0x4c, 0x00, 0x04] ++ strBytes "self" ++
  [0x74, 0x00, 0x04] ++ strBytes "LAA;" ++
  [0x78, 0x70,
   0x71, 0x00, 0x7e, 0x00, 0x02]

theorem sanity_parse_selfRef : ParseSerializedObject selfRefStream =
    .ok (.vmap [(strBytes "self", .vstr cycleMarker)]) := rfl

theorem sanity_parse_null : ParseSerializedObject [0xac, 0xed, 0x00, 0x05, 0x70] = .ok .vnull := rfl

theorem sanity_parse_trailing : ParseSerializedObject [0xac, 0xed, 0x00, 0x05, 0x70, 0x00] =
    .error "object already parsed but there is more data" := rfl

theorem sanity_parse_magic : ParseSerializedObject [0xac, 0xee, 0x00, 0x05, 0x70] =
    .error "magic value STREAM_MAGIC not found" := rfl

/-- Value of a standard base64 alphabet character. -/
def b64Val (c : Nat) : Option Nat :=
  if 65 ≤ c ∧ c ≤ 90 then some (c - 65)
  else if 97 ≤ c ∧ c ≤ 122 then some (c - 71)
  else if 48 ≤ c ∧ c ≤ 57 then some (c + 4)
  else if c = 43 then some 62
  else if c = 47 then some 63
  else none

/-- Decode base64 four-character quanta; padding is only allowed in the
final quantum. -/
def b64DecodeQuanta : List Nat → Option (List Nat)
  | [] => some []
  | c1 :: c2 :: c3 :: c4 :: rest =>
    match b64Val c1, b64Val c2 with
    | some v1, some v2 =>
      if c3 = 61 then
        if c4 = 61 ∧ rest = [] then some [v1 * 4 + v2 / 16] else none
      else
        match b64Val c3 with
        | some v3 =>
          if c4 = 61 then
            if rest = [] then some [v1 * 4 + v2 / 16, v2 % 16 * 16 + v3 / 4] else none
          else
            match b64Val c4 with
            | some v4 =>
              match b64DecodeQuanta rest with
              | some bs =>
                some ((v1 * 4 + v2 / 16) :: (v2 % 16 * 16 + v3 / 4) :: (v3 % 4 * 64 + v4) :: bs)
              | none => none
            | none => none
        | none => none
    | _, _ => none
  | _ => none

/-- Model of Go `base64.StdEncoding.DecodeString`: carriage returns and
newlines are skipped, everything else must be well-padded quanta. -/
def b64Decode (input : List Nat) : Option (List Nat) :=
  b64DecodeQuanta (input.filter (fun c => !(c = 13 || c = 10)))

theorem sanity_b64_ok : b64Decode (strBytes "aGk=") = some (strBytes "hi") := by decide
theorem sanity_b64_bad : b64Decode (strBytes "aGk") = none := by decide

/-- The `ParseBase64ToObject` entry point: require UTF-8 input, decode
base64 and parse the decoded bytes as a serialized Java object. -/
def ParseBase64ToObject (value : List Nat) : Except String JValue :=
  if !(utf8Valid value) then .error "not valid utf8"
  else
    match b64Decode value with
    | none => .error "illegal base64 data"
    | some bs => ParseSerializedObject bs

/-- The `ParseBase64ToMarshal` entry point.  `jsonMarshalF` models
`encoding/json.Marshal` on dynamic values (external library code). -/
def ParseBase64ToMarshal (jsonMarshalF : JValue → Option (List Nat)) (value : List Nat) :
    Except String (List Nat) :=
  match ParseBase64ToObject value with
  | .error e => .error e
  | .ok obj =>
    match jsonMarshalF obj with
    | some bs => .ok bs
    | none => .error "json: unsupported value"

/-!
## Base64JavaSerde truncation model

backend/pkg/serde/base64_java.go works on the dynamic values produced by
the external java2json library (strings, slices, string-keyed maps and
other atoms); `truncateObject` dispatches only on those shapes.
-/

/-- Dynamic value shape seen by `truncateObject`. -/
inductive GoVal where
  | gnull
  | gstr (s : List Nat)
  | garr (xs : List GoVal)
  | gmap (m : List (List Nat × GoVal))
  | gother

/-- Go constant `maxObjectNodeDepth`. -/
def maxObjectNodeDepth : Nat := 7

/-- Go constant `maxStringLength`. -/
def maxStringLength : Nat := 4000

mutual
/-- The `truncateObject` function: delete container contents deeper than
`maxDepth` and truncate strings longer than `maxStringLength` bytes. -/
def truncateObject (obj : GoVal) (depth maxDepth maxStrLen : Nat) : GoVal :=
  if maxDepth ≤ 0 then obj
  else
    match obj with
    | .gstr s => if s.length > maxStrLen then .gstr (s.take maxStrLen) else .gstr s
    | .garr xs =>
      if depth + 1 ≥ maxDepth then .garr []
      else .garr (truncateList xs (depth + 1) maxDepth maxStrLen)
    | .gmap m =>
      if depth + 1 ≥ maxDepth then .gmap []
      else .gmap (truncateMap m (depth + 1) maxDepth maxStrLen)
    | v => v

/-- Elementwise truncation of a slice. -/
def truncateList (xs : List GoVal) (depth maxDepth maxStrLen : Nat) : List GoVal :=
  match xs with
  | [] => []
  | x :: tl => truncateObject x depth maxDepth maxStrLen :: truncateList tl depth maxDepth maxStrLen

/-- Valuewise truncation of a map. -/
def truncateMap (m : List (List Nat × GoVal)) (depth maxDepth maxStrLen : Nat) :
    List (List Nat × GoVal) :=
  match m with
  | [] => []
  | (k, v) :: tl =>
    (k, truncateObject v depth maxDepth maxStrLen) :: truncateMap tl depth maxDepth maxStrLen
end

/-- Chain of arrays nested `n` levels deep ending in a one-byte string. -/
def chainGo : Nat → GoVal
  | 0 => .gstr [120]
  | n + 1 => .garr [chainGo n]

/-- Descend `n` levels into first elements of nested arrays. -/
def peelGo : Nat → GoVal → Option GoVal
  | 0, v => some v
  | n + 1, .garr (x :: _) => peelGo n x
  | _ + 1, _ => none

/-!
## Payload deserializer model (deserializer.go)

External collaborators are modelled in `DeserializerEnv`: a `none` service
mirrors a nil Go service pointer; each decode function returns the already
JSON-marshalled bytes of a successful decode, or `none` for any failure
(lookup miss, decode error), which the orchestrator treats identically.
The `Object` field of the Go payload struct (tagged to be skipped by JSON
serialization) duplicates the native decode and is not modelled.
-/

/-- The recognized encodings (`messageEncoding`). -/
inductive MessageEncoding where
  | none
  | avro
  | protobuf
  | json
  | xml
  | text
  | utf8WithControlChars
  | consumerOffsets
  | binary
  | msgpack
  | smile
  deriving DecidableEq

/-- The `normalizedPayload` wrapper. -/
structure NormalizedPayload where
  payload : List Nat
  recognizedEncoding : MessageEncoding
  deriving DecidableEq

/-- The `deserializedPayload` envelope. -/
structure DeserializedPayload where
  payload : NormalizedPayload
  isPayloadNull : Bool
  recognizedEncoding : MessageEncoding
  schemaId : Nat
  size : Nat
  deriving DecidableEq

/-- Role of the payload within its record (`proto.RecordPropertyType`). -/
inductive RecordPropertyType where
  | key
  | value
  deriving DecidableEq

/-- External collaborators of the deserializer. -/
structure DeserializerEnv where
  schemaSvc : Bool
  avroDecode : Nat → List Nat → Option (List Nat)
  protoSvc : Option (List Nat → String → RecordPropertyType → Option (List Nat × Nat))
  msgPackSvc : Option (String → Bool)
  msgpackDecode : List Nat → Option (List Nat)
  smileDecode : List Nat → Option (List Nat)
  xmlConvert : List Nat → Option (List Nat)
  offsetCommitKeyRead : List Nat → Option (List Nat)
  offsetCommitValueRead : List Nat → Option (List Nat)
  groupMetadataKeyRead : List Nat → Option (List Nat)
  groupMetadataValueRead : List Nat → Option (List Nat)
  jsonMarshal : JValue → Option (List Nat)

/-- Build a result payload (every branch sets the inner and outer encoding
to the same value). -/
def mkPayload (pb : List Nat) (enc : MessageEncoding) (isNull : Bool)
    (sid : Nat) (size : Nat) : DeserializedPayload :=
  { payload := { payload := pb, recognizedEncoding := enc }
    isPayloadNull := isNull
    recognizedEncoding := enc
    schemaId := sid
    size := size }

/-- The `containsControlChars` helper. -/
def containsControlChars (b : List Nat) : Bool :=
  b.any (fun v => v ≤ 31 || (127 ≤ v && v ≤ 159))

/-- Step 1: strict JSON probe, gated on the first non-whitespace byte. -/
def probeJSON (b trimmed : List Nat) (isNull : Bool) : Option DeserializedPayload :=
  if trimmed.head? = some 91 ∨ trimmed.head? = some 123 then
    match jsonParse b with
    | some _ => some (mkPayload trimmed .json isNull 0 b.length)
    | none => none
  else none

/-- Step 2: schema-registry-framed JSON probe. -/
def probeSchemaJSON (env : DeserializerEnv) (b : List Nat) (isNull : Bool) :
    Option DeserializedPayload :=
  if env.schemaSvc ∧ b.length > 5 ∧ b.head? = some 0 then
    let schemaId := beNat ((b.drop 1).take 4)
    let t := b.drop 5
    if t.head? = some 91 ∨ t.head? = some 123 then
      match jsonParse t with
      | some _ => some (mkPayload t .json isNull schemaId b.length)
      | none => none
    else none
  else none

/-- Step 3: XML probe (conversion to JSON by the external xml2json library). -/
def probeXML (env : DeserializerEnv) (b trimmed : List Nat) (isNull : Bool) :
    Option DeserializedPayload :=
  if trimmed.head? = some 60 then
    match env.xmlConvert trimmed with
    | some jb => some (mkPayload jb .xml isNull 0 b.length)
    | none => none
  else none

/-- Step 4: Avro probe (schema lookup and decode by collaborators). -/
def probeAvro (env : DeserializerEnv) (b : List Nat) (isNull : Bool) :
    Option DeserializedPayload :=
  if env.schemaSvc ∧ b.length > 5 then
    if b.head? = some 0 then
      let schemaId := beNat ((b.drop 1).take 4)
      match env.avroDecode schemaId (b.drop 5) with
      | some jsonBytes => some (mkPayload jsonBytes .avro isNull schemaId b.length)
      | none => none
    else none
  else none

/-- Step 5: Protobuf probe; the returned bytes must re-parse as JSON. -/
def probeProto (env : DeserializerEnv) (b : List Nat) (topic : String)
    (rt : RecordPropertyType) (isNull : Bool) : Option DeserializedPayload :=
  match env.protoSvc with
  | some unmarshal =>
    match unmarshal b topic rt with
    | some (jsonBytes, schemaId) =>
      match jsonParse jsonBytes with
      | some _ => some (mkPayload jsonBytes .protobuf isNull schemaId b.length)
      | none => none
    | none => none
  | none => none

/-- Step 6: MessagePack probe, gated on the topic allow-list. -/
def probeMsgPack (env : DeserializerEnv) (b : List Nat) (topic : String)
    (isNull : Bool) : Option DeserializedPayload :=
  match env.msgPackSvc with
  | some allowed =>
    if allowed topic then
      match env.msgpackDecode b with
      | some data => some (mkPayload data .msgpack isNull 0 b.length)
      | none => none
    else none
  | none => none

/-- Step 7: Smile probe, gated on the three-byte Smile header. -/
def probeSmile (env : DeserializerEnv) (b : List Nat) (isNull : Bool) :
    Option DeserializedPayload :=
  if b.length > 3 ∧ b.head? = some 58 ∧ (b.drop 1).head? = some 41 ∧
      (b.drop 2).head? = some 10 then
    match env.smileDecode b with
    | some jsonBytes => some (mkPayload jsonBytes .smile isNull 0 b.length)
    | none => none
  else none

/-- The `deserializePayload` probe chain.  A nil Go byte slice is `none`;
a non-null payload is `some` bytes. -/
def deserializePayload (env : DeserializerEnv) (payload : Option (List Nat))
    (topicName : String) (recordType : RecordPropertyType) : DeserializedPayload :=
  let b := payload.getD []
  if b.length = 0 then mkPayload b .none payload.isNone 0 b.length
  else
    let trimmed := trimLeftWs b
    if trimmed.length = 0 then mkPayload b .text payload.isNone 0 b.length
    else
      match probeJSON b trimmed payload.isNone with
      | some r => r
      | none =>
      match probeSchemaJSON env b payload.isNone with
      | some r => r
      | none =>
      match probeXML env b trimmed payload.isNone with
      | some r => r
      | none =>
      match probeAvro env b payload.isNone with
      | some r => r
      | none =>
      match probeProto env b topicName recordType payload.isNone with
      | some r => r
      | none =>
      match probeMsgPack env b topicName payload.isNone with
      | some r => r
      | none =>
      match probeSmile env b payload.isNone with
      | some r => r
      | none =>
      if utf8Valid b then
        if containsControlChars b then
          mkPayload b .utf8WithControlChars payload.isNone 0 b.length
        else mkPayload b .text payload.isNone 0 b.length
      else mkPayload b .binary payload.isNone 0 b.length

/-- A Kafka record as the deserializer sees it (key, value and headers may
be nil byte slices). -/
structure KRecord where
  key : Option (List Nat)
  value : Option (List Nat)
  headers : List (String × Option (List Nat))
  topic : String

/-- The `deserializedRecord` result (the Go struct holds nilable pointers). -/
structure DeserializedRecord where
  key : Option DeserializedPayload
  value : Option DeserializedPayload
  headers : List (String × DeserializedPayload)

/-- The `deserializeConsumerOffset` decoder for the __consumer_offsets
topic.  The fixed-layout kmsg readers are external collaborators, modelled
as env functions returning the JSON-marshalled decode on success. -/
def deserializeConsumerOffset (env : DeserializerEnv) (record : KRecord) :
    Except String DeserializedRecord :=
  let keyBytes := record.key.getD []
  if keyBytes.length < 2 then
    .error "offset commit key is supposed to be at least 2 bytes long"
  else
    let messageVer := toSigned 16 (beNat (keyBytes.take 2))
    if messageVer = 0 ∨ messageVer = 1 then
      let deserializedKey : Option DeserializedPayload :=
        match env.offsetCommitKeyRead keyBytes with
        | some kb => some (mkPayload kb .consumerOffsets false 0 keyBytes.length)
        | none => none
      let deserializedVal : Option DeserializedPayload :=
        match record.value with
        | none => none
        | some vb =>
          match env.offsetCommitValueRead vb with
          | some vj => some (mkPayload vj .consumerOffsets false 0 vb.length)
          | none => none
      let valOrTombstone := match deserializedVal with
        | some dv => dv
        | none =>
          mkPayload (record.value.getD []) .none false 0 (record.value.getD []).length
      .ok { key := deserializedKey, value := some valOrTombstone, headers := [] }
    else if messageVer = 2 then
      let deserializedKey : Option DeserializedPayload :=
        match env.groupMetadataKeyRead keyBytes with
        | some kb => some (mkPayload kb .consumerOffsets false 0 keyBytes.length)
        | none => none
      let deserializedVal : Option DeserializedPayload :=
        match record.value with
        | none => none
        | some vb =>
          match env.groupMetadataValueRead vb with
          | some vj => some (mkPayload vj .consumerOffsets false 0 vb.length)
          | none => none
      let valOrTombstone := match deserializedVal with
        | some dv => dv
        | none =>
          mkPayload (record.value.getD []) .none false 0 (record.value.getD []).length
      .ok { key := deserializedKey, value := some valOrTombstone, headers := [] }
    else .error ("unknown message version '" ++ intStr messageVer ++ "' detected")

/-- The generic part of `DeserializeRecord` after the consumer-offsets
attempt: the optional base64-java value rewrite, per-part probing, and the
online-connector-out payload replacement. -/
def deserializeRecordRest (env : DeserializerEnv) (record : KRecord)
    (parseJavaToJson : Bool) : DeserializedRecord :=
  let record1 :=
    if parseJavaToJson ∧ record.topic ≠ "event-in" ∧ record.topic ≠ "event-out" ∧
        record.topic ≠ "online-connector" ∧ record.topic ≠ "online-connector-out" then
      match ParseBase64ToMarshal env.jsonMarshal (record.value.getD []) with
      | .ok obj => { record with value := some obj }
      | .error _ => record
    else record
  let rec0 : DeserializedRecord :=
    { key := some (deserializePayload env record1.key record1.topic .key)
      value := some (deserializePayload env record1.value record1.topic .value)
      headers := record1.headers.map
        (fun h => (h.1, deserializePayload env h.2 record1.topic .value)) }
  if parseJavaToJson ∧ record1.topic = "online-connector-out" then
    match ParseBase64ToObject (record1.value.getD []) with
    | .ok obj =>
      match rec0.value with
      | some dv =>
        let dv2 := { dv with payload := { dv.payload with payload := sprintVal obj } }
        { rec0 with value := some dv2 }
      | none => rec0
    | .error _ => rec0
  else rec0

/-- The `DeserializeRecord` orchestrator: on the __consumer_offsets topic
the specialized decoder is tried first and only its failure falls back to
the generic chain. -/
def DeserializeRecord (env : DeserializerEnv) (record : KRecord)
    (parseJavaToJson : Bool) : DeserializedRecord :=
  if record.topic = "__consumer_offsets" then
    match deserializeConsumerOffset env record with
    | .ok rec => rec
    | .error _ => deserializeRecordRest env record parseJavaToJson
  else deserializeRecordRest env record parseJavaToJson

/-!
## Handle table lemmas

`handleExt a b` states that `b` extends `a` by appended entries only: this
is the append-only discipline of the handle table.  Deferred fills and the
completion of a class descriptor slot always target a slot allocated
within the same parsing step, i.e. at an index at or beyond the length of
the table at the start of the step, so from the outside every step is a
pure append.
-/

/-- The handle table `b` is the handle table `a` plus appended entries. -/
def handleExt (a b : List (Option JValue)) : Prop := ∃ ext, b = a ++ ext

theorem handleExt_refl (a : List (Option JValue)) : handleExt a a := ⟨[], by simp⟩

theorem handleExt_of_eq {a b : List (Option JValue)} (h : b = a) : handleExt a b :=
  ⟨[], by simp [h]⟩

theorem handleExt_trans {a b c : List (Option JValue)}
    (h1 : handleExt a b) (h2 : handleExt b c) : handleExt a c := by
  obtain ⟨e1, rfl⟩ := h1
  obtain ⟨e2, rfl⟩ := h2
  exact ⟨e1 ++ e2, by simp⟩

theorem handleExt_append (a e : List (Option JValue)) : handleExt a (a ++ e) := ⟨e, rfl⟩

theorem set_append_of_le {α : Type} (a e : List α) (i : Nat) (v : α) (h : a.length ≤ i) :
    (a ++ e).set i v = a ++ e.set (i - a.length) v := by
  induction a generalizing i with
  | nil => simp
  | cons x xs ih =>
    cases i with
    | zero => simp at h
    | succ j =>
      simp only [List.cons_append, List.set_cons_succ]
      rw [ih j (Nat.le_of_succ_le_succ h)]
      simp [Nat.succ_sub_succ]

theorem handleExt_set {a b : List (Option JValue)} (i : Nat) (v : Option JValue)
    (h1 : handleExt a b) (h2 : a.length ≤ i) : handleExt a (b.set i v) := by
  obtain ⟨e, rfl⟩ := h1
  exact ⟨e.set (i - a.length) v, set_append_of_le a e i v h2⟩

theorem handleExt_get {a b : List (Option JValue)} (h : handleExt a b)
    {i : Nat} (hi : i < a.length) : b.get? i = a.get? i := by
  obtain ⟨e, rfl⟩ := h
  exact List.get?_append hi

/-- The primitive readers do not touch the handle table. -/
theorem takeN_handles {n : Nat} {m : String} {s : PState} {bs : List Nat} {s1 : PState}
    (h : takeN n m s = .ok (bs, s1)) : s1.handles = s.handles := by
  unfold takeN at h
  split at h
  · cases h; rfl
  · cases h

theorem readBE_handles {n : Nat} {m : String} {s : PState} {x : Nat} {s1 : PState}
    (h : readBE n m s = .ok (x, s1)) : s1.handles = s.handles := by
  unfold readBE at h
  split at h
  · next p heq =>
    obtain ⟨bs, s2⟩ := p
    cases h
    exact takeN_handles heq
  · cases h

theorem readUInt8_handles {s : PState} {x : Nat} {s1 : PState}
    (h : readUInt8 s = .ok (x, s1)) : s1.handles = s.handles := readBE_handles h

theorem readUInt16_handles {s : PState} {x : Nat} {s1 : PState}
    (h : readUInt16 s = .ok (x, s1)) : s1.handles = s.handles := readBE_handles h

theorem readUInt32_handles {s : PState} {x : Nat} {s1 : PState}
    (h : readUInt32 s = .ok (x, s1)) : s1.handles = s.handles := readBE_handles h

theorem readSigned_handles {n : Nat} {m : String} {s : PState} {x : Int} {s1 : PState} {w : Nat}
    (h : (match readBE n m s with
          | .ok (y, s2) => (.ok (toSigned w y, s2) : Except PErr (Int × PState))
          | .error e => .error e) = .ok (x, s1)) : s1.handles = s.handles := by
  split at h
  · next y s2 heq =>
    cases h
    exact readBE_handles heq
  · cases h

theorem readInt8_handles {s : PState} {x : Int} {s1 : PState}
    (h : readInt8 s = .ok (x, s1)) : s1.handles = s.handles := by
  unfold readInt8 at h
  exact readSigned_handles h

theorem readInt16_handles {s : PState} {x : Int} {s1 : PState}
    (h : readInt16 s = .ok (x, s1)) : s1.handles = s.handles := by
  unfold readInt16 at h
  exact readSigned_handles h

theorem readInt32_handles {s : PState} {x : Int} {s1 : PState}
    (h : readInt32 s = .ok (x, s1)) : s1.handles = s.handles := by
  unfold readInt32 at h
  exact readSigned_handles h

theorem readInt64_handles {s : PState} {x : Int} {s1 : PState}
    (h : readInt64 s = .ok (x, s1)) : s1.handles = s.handles := by
  unfold readInt64 at h
  exact readSigned_handles h

theorem readString_handles {mb cnt : Nat} {asHex : Bool} {s : PState} {bs : List Nat} {s1 : PState}
    (h : readString mb cnt asHex s = .ok (bs, s1)) : s1.handles = s.handles := by
  unfold readString at h
  split at h
  · cases h
  · split at h
    · next p heq =>
      obtain ⟨bs2, s2⟩ := p
      cases h
      exact takeN_handles heq
    · cases h

theorem utf_handles {mb : Nat} {s : PState} {bs : List Nat} {s1 : PState}
    (h : utf mb s = .ok (bs, s1)) : s1.handles = s.handles := by
  unfold utf at h
  split at h
  · cases h
  · next n s2 heq =>
    split at h
    · cases h
    · next r heq2 =>
      cases h
      exact (readString_handles heq2).trans (readUInt16_handles heq)

theorem utfLong_handles {mb : Nat} {s : PState} {bs : List Nat} {s1 : PState}
    (h : utfLong mb s = .ok (bs, s1)) : s1.handles = s.handles := by
  unfold utfLong at h
  split at h
  · cases h
  · next hi s2 heq =>
    split at h
    · cases h
    · split at h
      · cases h
      · next n s3 heq2 =>
        split at h
        · cases h
        · next r heq3 =>
          cases h
          exact ((readString_handles heq3).trans (readUInt32_handles heq2)).trans
            (readUInt32_handles heq)

theorem parseReference_handles {s : PState} {v : JValue} {s1 : PState}
    (h : parseReference s = .ok (v, s1)) : s1.handles = s.handles := by
  unfold parseReference at h
  split at h
  · cases h
  · next refIdx s2 heq =>
    dsimp only at h
    split at h
    · split at h <;> (cases h; exact readInt32_handles heq)
    · cases h
      exact readInt32_handles heq

theorem parseString_handleExt {mb : Nat} {s : PState} {v : JValue} {s1 : PState}
    (h : parseString mb s = .ok (v, s1)) : handleExt s.handles s1.handles := by
  unfold parseString at h
  split at h
  · cases h
  · next str s2 heq =>
    cases h
    exact handleExt_trans (handleExt_of_eq (utf_handles heq))
      (handleExt_append _ _)

theorem parseLongString_handleExt {mb : Nat} {s : PState} {v : JValue} {s1 : PState}
    (h : parseLongString mb s = .ok (v, s1)) : handleExt s.handles s1.handles := by
  unfold parseLongString at h
  split at h
  · cases h
  · next str s2 heq =>
    cases h
    exact handleExt_trans (handleExt_of_eq (utfLong_handles heq))
      (handleExt_append _ _)

theorem parseBlockData_handles {s : PState} {v : JValue} {s1 : PState}
    (h : parseBlockData s = .ok (v, s1)) : s1.handles = s.handles := by
  unfold parseBlockData at h
  split at h
  · cases h
  · next size s2 heq =>
    split at h
    · cases h
    · next data s3 heq2 =>
      cases h
      exact (takeN_handles heq2).trans (readUInt8_handles heq)

theorem parseBlockDataLong_handles {mb : Nat} {s : PState} {v : JValue} {s1 : PState}
    (h : parseBlockDataLong mb s = .ok (v, s1)) : s1.handles = s.handles := by
  unfold parseBlockDataLong at h
  split at h
  · cases h
  · next size s2 heq =>
    split at h
    · cases h
    · split at h
      · cases h
      · next data s3 heq2 =>
        cases h
        exact (takeN_handles heq2).trans (readUInt32_handles heq)

theorem asV_ok {r : Except PErr (PRet × PState)} {x : JValue} {s1 : PState}
    (h : asV r = .ok (x, s1)) : r = .ok (.v x, s1) := by
  unfold asV at h
  split at h
  · cases h; rfl
  · cases h
  · cases h

theorem handleExt_length {a b : List (Option JValue)} (h : handleExt a b) :
    a.length ≤ b.length := by
  obtain ⟨e, rfl⟩ := h
  simp

theorem dispatchTag_ext {recur : Recur} {mb : Nat} {name : String} {s1 : PState}
    {r : JValue} {s2 : PState}
    (hrec : ∀ q st rr st2, recur q st = .ok (rr, st2) → handleExt st.handles st2.handles)
    (h : dispatchTag recur mb name s1 = .ok (r, s2)) : handleExt s1.handles s2.handles := by
  unfold dispatchTag at h
  by_cases h1 : name = "Enum"
  · rw [if_pos h1] at h; exact hrec _ _ _ _ (asV_ok h)
  · rw [if_neg h1] at h
    by_cases h2 : name = "BlockDataLong"
    · rw [if_pos h2] at h; exact handleExt_of_eq (parseBlockDataLong_handles h)
    · rw [if_neg h2] at h
      by_cases h3 : name = "BlockData"
      · rw [if_pos h3] at h; exact handleExt_of_eq (parseBlockData_handles h)
      · rw [if_neg h3] at h
        by_cases h4 : name = "EndBlockData"
        · rw [if_pos h4] at h; cases h; exact handleExt_refl _
        · rw [if_neg h4] at h
          by_cases h5 : name = "ClassDesc"
          · rw [if_pos h5] at h; exact hrec _ _ _ _ (asV_ok h)
          · rw [if_neg h5] at h
            by_cases h6 : name = "Class"
            · rw [if_pos h6] at h; exact hrec _ _ _ _ (asV_ok h)
            · rw [if_neg h6] at h
              by_cases h7 : name = "Array"
              · rw [if_pos h7] at h; exact hrec _ _ _ _ (asV_ok h)
              · rw [if_neg h7] at h
                by_cases h8 : name = "LongString"
                · rw [if_pos h8] at h; exact parseLongString_handleExt h
                · rw [if_neg h8] at h
                  by_cases h9 : name = "String"
                  · rw [if_pos h9] at h; exact parseString_handleExt h
                  · rw [if_neg h9] at h
                    by_cases h10 : name = "Null"
                    · rw [if_pos h10] at h; cases h; exact handleExt_refl _
                    · rw [if_neg h10] at h
                      by_cases h11 : name = "Object"
                      · rw [if_pos h11] at h; exact hrec _ _ _ _ (asV_ok h)
                      · rw [if_neg h11] at h
                        by_cases h12 : name = "Reference"
                        · rw [if_pos h12] at h
                          exact handleExt_of_eq (parseReference_handles h)
                        · rw [if_neg h12] at h
                          exact Except.noConfusion h

theorem contentStep_ext {recur : Recur} {mb : Nat} {allowed : Option (List String)}
    {s : PState} {r : PRet} {s2 : PState}
    (hrec : ∀ q st rr st2, recur q st = .ok (rr, st2) → handleExt st.handles st2.handles)
    (h : contentStep recur mb allowed s = .ok (r, s2)) : handleExt s.handles s2.handles := by
  unfold contentStep at h
  split at h
  · exact Except.noConfusion h
  · next tcr s1 heq =>
    split at h
    · exact Except.noConfusion h
    · split at h
      · exact Except.noConfusion h
      · split at h
        · exact Except.noConfusion h
        · next value s2x heq2 =>
          cases h
          exact handleExt_trans (handleExt_of_eq (readUInt8_handles heq))
            (dispatchTag_ext hrec heq2)

theorem annsStep_ext {recur : Recur} {allowed : Option (List String)} {acc : List JValue}
    {s : PState} {r : PRet} {s2 : PState}
    (hrec : ∀ q st rr st2, recur q st = .ok (rr, st2) → handleExt st.handles st2.handles)
    (h : annsStep recur allowed acc s = .ok (r, s2)) : handleExt s.handles s2.handles := by
  unfold annsStep at h
  split at h <;>
    first
    | exact Except.noConfusion h
    | (rename_i ann s1 heq
       split at h <;>
         first
         | (cases h; exact hrec _ _ _ _ heq)
         | exact handleExt_trans (hrec _ _ _ _ heq) (hrec _ _ _ _ h))

theorem classDescStep_ext {recur : Recur} {s : PState} {r : PRet} {s2 : PState}
    (hrec : ∀ q st rr st2, recur q st = .ok (rr, st2) → handleExt st.handles st2.handles)
    (h : classDescStep recur s = .ok (r, s2)) : handleExt s.handles s2.handles := by
  unfold classDescStep at h
  split at h <;>
    first
    | exact Except.noConfusion h
    | (rename_i x s1 heq
       split at h <;>
         first
         | exact Except.noConfusion h
         | (cases h; exact hrec _ _ _ _ heq))

theorem fieldDescStep_ext {recur : Recur} {mb : Nat} {s : PState} {r : PRet} {s2 : PState}
    (hrec : ∀ q st rr st2, recur q st = .ok (rr, st2) → handleExt st.handles st2.handles)
    (h : fieldDescStep recur mb s = .ok (r, s2)) : handleExt s.handles s2.handles := by
  unfold fieldDescStep at h
  split at h
  · exact Except.noConfusion h
  · next typeDec s1 heq =>
    split at h
    · exact Except.noConfusion h
    · next nm s1b heq2 =>
      have e1 : handleExt s.handles s1b.handles :=
        handleExt_of_eq ((utf_handles heq2).trans (readUInt8_handles heq))
      split at h
      · split at h <;>
          first
          | exact Except.noConfusion h
          | (rename_i cn s3 heq3
             split at h <;>
               first
               | exact Except.noConfusion h
               | (cases h; exact handleExt_trans e1 (hrec _ _ _ _ heq3)))
      · cases h; exact e1

theorem fieldsLoopStep_ext {recur : Recur} {n : Nat} {acc : List JField}
    {s : PState} {r : PRet} {s2 : PState}
    (hrec : ∀ q st rr st2, recur q st = .ok (rr, st2) → handleExt st.handles st2.handles)
    (h : fieldsLoopStep recur n acc s = .ok (r, s2)) : handleExt s.handles s2.handles := by
  unfold fieldsLoopStep at h
  split at h
  · cases h; exact handleExt_refl _
  · split at h <;>
      first
      | exact Except.noConfusion h
      | (rename_i fd s1 heq
         exact handleExt_trans (hrec _ _ _ _ heq) (hrec _ _ _ _ h))

theorem valuesLoopStep_ext {recur : Recur} {fields : List JField} {acc : JMap}
    {s : PState} {r : PRet} {s2 : PState}
    (hrec : ∀ q st rr st2, recur q st = .ok (rr, st2) → handleExt st.handles st2.handles)
    (h : valuesLoopStep recur fields acc s = .ok (r, s2)) : handleExt s.handles s2.handles := by
  unfold valuesLoopStep at h
  split at h
  · cases h; exact handleExt_refl _
  · split at h
    · exact Except.noConfusion h
    · split at h <;>
        first
        | exact Except.noConfusion h
        | (rename_i v s1 heq
           exact handleExt_trans (hrec _ _ _ _ heq) (hrec _ _ _ _ h))

theorem arrayElemsStep_ext {recur : Recur} {ch n : Nat} {acc : List JValue}
    {s : PState} {r : PRet} {s2 : PState}
    (hrec : ∀ q st rr st2, recur q st = .ok (rr, st2) → handleExt st.handles st2.handles)
    (h : arrayElemsStep recur ch n acc s = .ok (r, s2)) : handleExt s.handles s2.handles := by
  unfold arrayElemsStep at h
  split at h
  · cases h; exact handleExt_refl _
  · split at h <;>
      first
      | exact Except.noConfusion h
      | (rename_i v s1 heq
         exact handleExt_trans (hrec _ _ _ _ heq) (hrec _ _ _ _ h))

theorem classTagStep_ext {recur : Recur} {s : PState} {r : PRet} {s2 : PState}
    (hrec : ∀ q st rr st2, recur q st = .ok (rr, st2) → handleExt st.handles st2.handles)
    (h : classTagStep recur s = .ok (r, s2)) : handleExt s.handles s2.handles := by
  unfold classTagStep at h
  split at h <;>
    first
    | exact Except.noConfusion h
    | (rename_i cd s1 heq
       split at h <;>
         (cases h
          exact handleExt_trans (hrec _ _ _ _ heq) (handleExt_append _ _)))

theorem primStep_ext {recur : Recur} {t : List Nat} {s : PState} {r : PRet} {s2 : PState}
    (hrec : ∀ q st rr st2, recur q st = .ok (rr, st2) → handleExt st.handles st2.handles)
    (h : primStep recur t s = .ok (r, s2)) : handleExt s.handles s2.handles := by
  unfold primStep at h
  by_cases h1 : t = [66]
  · rw [if_pos h1] at h
    split at h
    · exact Except.noConfusion h
    · next x s1 heq => cases h; exact handleExt_of_eq (readInt8_handles heq)
  · rw [if_neg h1] at h
    by_cases h2 : t = [67]
    · rw [if_pos h2] at h
      split at h
      · exact Except.noConfusion h
      · next x s1 heq => cases h; exact handleExt_of_eq (readUInt16_handles heq)
    · rw [if_neg h2] at h
      by_cases h3 : t = [68]
      · rw [if_pos h3] at h
        split at h
        · exact Except.noConfusion h
        · next x s1 heq => cases h; exact handleExt_of_eq (readBE_handles heq)
      · rw [if_neg h3] at h
        by_cases h4 : t = [70]
        · rw [if_pos h4] at h
          split at h
          · exact Except.noConfusion h
          · next x s1 heq => cases h; exact handleExt_of_eq (readBE_handles heq)
        · rw [if_neg h4] at h
          by_cases h5 : t = [73]
          · rw [if_pos h5] at h
            split at h
            · exact Except.noConfusion h
            · next x s1 heq => cases h; exact handleExt_of_eq (readInt32_handles heq)
          · rw [if_neg h5] at h
            by_cases h6 : t = [74]
            · rw [if_pos h6] at h
              split at h
              · exact Except.noConfusion h
              · next x s1 heq => cases h; exact handleExt_of_eq (readInt64_handles heq)
            · rw [if_neg h6] at h
              by_cases h7 : t = [83]
              · rw [if_pos h7] at h
                split at h
                · exact Except.noConfusion h
                · next x s1 heq => cases h; exact handleExt_of_eq (readInt16_handles heq)
              · rw [if_neg h7] at h
                by_cases h8 : t = [90]
                · rw [if_pos h8] at h
                  split at h
                  · exact Except.noConfusion h
                  · next x s1 heq => cases h; exact handleExt_of_eq (readInt8_handles heq)
                · rw [if_neg h8] at h
                  by_cases h9 : t = [76]
                  · rw [if_pos h9] at h
                    split at h
                    · exact Except.noConfusion h
                    · next p heq => cases h; exact hrec _ _ _ _ heq
                  · rw [if_neg h9] at h
                    by_cases h10 : t = [91]
                    · rw [if_pos h10] at h
                      split at h
                      · exact Except.noConfusion h
                      · next p heq => cases h; exact hrec _ _ _ _ heq
                    · rw [if_neg h10] at h
                      exact Except.noConfusion h

theorem clsDescParseStep_ext {recur : Recur} {mb : Nat} {s : PState} {r : PRet} {s2 : PState}
    (hrec : ∀ q st rr st2, recur q st = .ok (rr, st2) → handleExt st.handles st2.handles)
    (h : clsDescParseStep recur mb s = .ok (r, s2)) : handleExt s.handles s2.handles := by
  unfold clsDescParseStep at h
  split at h
  · exact Except.noConfusion h
  · next nm s1 heq1 =>
    split at h
    · exact Except.noConfusion h
    · next uid s1b heq2 =>
      split at h
      · exact Except.noConfusion h
      · next flags s4 heq3 =>
        split at h
        · exact Except.noConfusion h
        · next fieldCount s5 heq4 =>
          split at h <;>
            first
            | exact Except.noConfusion h
            | (rename_i fields s6 heq5
               split at h <;>
                 first
                 | exact Except.noConfusion h
                 | (rename_i annsv s7 heq6
                    split at h <;>
                      first
                      | exact Except.noConfusion h
                      | (rename_i sup s8 heq7
                         cases h
                         have e1 : s1.handles = s.handles := utf_handles heq1
                         have e2 : s1b.handles = s1.handles := readString_handles heq2
                         have e3 : s4.handles = s1b.handles ++
                             [some (JValue.vclazz (Clazz.mk nm uid 0 false [] [] none))] :=
                           readUInt8_handles heq3
                         have e4 : s5.handles = s4.handles := readUInt16_handles heq4
                         refine handleExt_set _ _ ?_ ?_
                         · exact handleExt_trans (handleExt_of_eq e1)
                             (handleExt_trans (handleExt_of_eq e2)
                               (handleExt_trans (handleExt_append s1b.handles _)
                                 (handleExt_trans (handleExt_of_eq e3)
                                   (handleExt_trans (handleExt_of_eq e4)
                                     (handleExt_trans (hrec _ _ _ _ heq5)
                                       (handleExt_trans (hrec _ _ _ _ heq6)
                                         (hrec _ _ _ _ heq7)))))))
                         · exact Nat.le_of_eq
                             (congrArg List.length (e2.trans e1)).symm)))

theorem iteRecur_ext {recur : Recur} {c : Bool} {q : Req} {st : PState} {ret0 rr : PRet}
    {st2 : PState}
    (hrec : ∀ q2 s0 rr2 s3, recur q2 s0 = .ok (rr2, s3) → handleExt s0.handles s3.handles)
    (h : (if c = true then recur q st else (.ok (ret0, st) : Except PErr (PRet × PState))) =
      .ok (rr, st2)) : handleExt st.handles st2.handles := by
  split at h
  · exact hrec _ _ _ _ h
  · cases h; exact handleExt_refl _

theorem clsDataStep_ext {recur : Recur} {cls : Clazz} {s : PState} {r : PRet} {s2 : PState}
    (hrec : ∀ q st rr st2, recur q st = .ok (rr, st2) → handleExt st.handles st2.handles)
    (h : clsDataStep recur cls s = .ok (r, s2)) : handleExt s.handles s2.handles := by
  unfold clsDataStep at h
  repeat any_goals (split at h)
  all_goals
    first
    | exact Except.noConfusion h
    | (cases h
       exact handleExt_trans (iteRecur_ext hrec (by assumption))
         (iteRecur_ext hrec (by assumption)))

theorem recSuper_ext {recur : Recur} {cls : Clazz} {obj : JMap}
    {seen : List (List Nat × List Nat)} {st : PState} {rr : PRet} {st2 : PState}
    (hrec : ∀ q s0 rr2 s3, recur q s0 = .ok (rr2, s3) → handleExt s0.handles s3.handles)
    (h : (match cls.super with
          | some sup =>
            if seenHas ((cls.name, cls.serialVersionUID) :: seen) sup then
              (.ok (.m obj, st) : Except PErr (PRet × PState))
            else
              recur (.recClsData (some sup) obj
                ((sup.name, sup.serialVersionUID) :: (cls.name, cls.serialVersionUID) :: seen)) st
          | none => .ok (.m obj, st)) = .ok (rr, st2)) : handleExt st.handles st2.handles := by
  split at h
  · split at h
    · cases h; exact handleExt_refl _
    · exact hrec _ _ _ _ h
  · cases h; exact handleExt_refl _

theorem recClsDataStep_ext {recur : Recur} {clsO : Option Clazz} {obj : JMap}
    {seen : List (List Nat × List Nat)} {s : PState} {r : PRet} {s2 : PState}
    (hrec : ∀ q st rr st2, recur q st = .ok (rr, st2) → handleExt st.handles st2.handles)
    (h : recClsDataStep recur clsO obj seen s = .ok (r, s2)) : handleExt s.handles s2.handles := by
  unfold recClsDataStep at h
  repeat any_goals (split at h)
  all_goals
    first
    | exact Except.noConfusion h
    | (cases h; exact handleExt_refl _)
    | (cases h
       exact handleExt_trans (recSuper_ext hrec (by assumption))
         (hrec _ _ _ _ (by assumption)))

theorem objectStep_ext {recur : Recur} {s : PState} {r : PRet} {s2 : PState}
    (hrec : ∀ q st rr st2, recur q st = .ok (rr, st2) → handleExt st.handles st2.handles)
    (h : objectStep recur s = .ok (r, s2)) : handleExt s.handles s2.handles := by
  unfold objectStep at h
  split at h <;>
    first
    | exact Except.noConfusion h
    | (rename_i clsO s1 heq1
       split at h <;>
         first
         | exact Except.noConfusion h
         | (rename_i obj s3 heq2
            cases h
            refine handleExt_set _ _ ?_ ?_
            · exact handleExt_trans (hrec _ _ _ _ heq1)
                (handleExt_trans (handleExt_append _ _) (hrec _ _ _ _ heq2))
            · exact handleExt_length (hrec _ _ _ _ heq1)))

theorem enumStep_ext {recur : Recur} {s : PState} {r : PRet} {s2 : PState}
    (hrec : ∀ q st rr st2, recur q st = .ok (rr, st2) → handleExt st.handles st2.handles)
    (h : enumStep recur s = .ok (r, s2)) : handleExt s.handles s2.handles := by
  unfold enumStep at h
  split at h <;>
    first
    | exact Except.noConfusion h
    | (rename_i clsO s1 heq1
       split at h <;>
         first
         | exact Except.noConfusion h
         | (rename_i ec s3 heq2
            cases h
            refine handleExt_set _ _ ?_ ?_
            · exact handleExt_trans (hrec _ _ _ _ heq1)
                (handleExt_trans (handleExt_append _ _) (hrec _ _ _ _ heq2))
            · exact handleExt_length (hrec _ _ _ _ heq1)))

theorem arrayStep_ext {recur : Recur} {s : PState} {r : PRet} {s2 : PState}
    (hrec : ∀ q st rr st2, recur q st = .ok (rr, st2) → handleExt st.handles st2.handles)
    (h : arrayStep recur s = .ok (r, s2)) : handleExt s.handles s2.handles := by
  unfold arrayStep at h
  split at h <;>
    first
    | exact Except.noConfusion h
    | (rename_i clsO s1 heq1
       split at h
       · exact Except.noConfusion h
       · rename_i size s2c heq2
         have e0 : handleExt s.handles s2c.handles :=
           handleExt_trans (hrec _ _ _ _ heq1) (handleExt_of_eq (readInt32_handles heq2))
         split at h <;>
           first
           | exact Except.noConfusion h
           | (cases h
              exact handleExt_trans e0 (handleExt_append _ _))
           | (split at h
              · exact Except.noConfusion h
              · split at h
                · exact Except.noConfusion h
                · split at h
                  · exact Except.noConfusion h
                  · split at h <;>
                      first
                      | exact Except.noConfusion h
                      | (rename_i arr s4 heq3
                         cases h
                         exact handleExt_trans e0
                           (handleExt_trans (handleExt_append _ _) (hrec _ _ _ _ heq3)))))

/-- The handle table is append-only across every parser step: a successful
step only appends entries (deferred fills and descriptor completion target
slots allocated within the same step). -/
theorem run_handleExt : ∀ (fuel mb : Nat) (req : Req) (s : PState) (r : PRet) (s2 : PState),
    run fuel mb req s = .ok (r, s2) → handleExt s.handles s2.handles := by
  intro fuel
  induction fuel with
  | zero =>
    intro mb req s r s2 h
    have h0 : run 0 mb req s = .error { eof := false, msg := "internal: out of fuel" } := rfl
    rw [h0] at h
    exact Except.noConfusion h
  | succ f ih =>
    intro mb req s r s2 h
    have hrec : ∀ (q : Req) (st : PState) (rr : PRet) (st2 : PState),
        (fun q st => run f mb q st) q st = .ok (rr, st2) → handleExt st.handles st2.handles :=
      fun q st rr st2 hh => ih mb q st rr st2 hh
    cases req with
    | content allowed => exact contentStep_ext hrec h
    | anns allowed acc => exact annsStep_ext hrec h
    | classDesc => exact classDescStep_ext hrec h
    | clsDescParse => exact clsDescParseStep_ext hrec h
    | fieldDesc => exact fieldDescStep_ext hrec h
    | fieldsLoop n acc => exact fieldsLoopStep_ext hrec h
    | valuesLoop fields acc => exact valuesLoopStep_ext hrec h
    | clsData cls => exact clsDataStep_ext hrec h
    | recClsData clsO obj seen => exact recClsDataStep_ext hrec h
    | objectParse => exact objectStep_ext hrec h
    | enumParse => exact enumStep_ext hrec h
    | arrayParse => exact arrayStep_ext hrec h
    | arrayElems ch n acc => exact arrayElemsStep_ext hrec h
    | classTagParse => exact classTagStep_ext hrec h
    | prim t => exact primStep_ext hrec h

/-!
## Claim-level lemmas for the Java parser
-/

/-- Big-endian 4-byte encoding of a 32-bit value. -/
def encBE4 (w : Nat) : List Nat :=
  [w / 16777216 % 256, w / 65536 % 256, w / 256 % 256, w % 256]

theorem beNat_encBE4 {w : Nat} (hw : w < 4294967296) : beNat (encBE4 w) = w := by
  simp only [beNat, encBE4, List.foldl]
  omega

theorem readBE4_at {m : String} {s : PState} {w : Nat} {rest : List Nat}
    (hin : s.input = encBE4 w ++ rest) (hw : w < 4294967296) :
    readBE 4 m s = .ok (w, { s with input := rest }) := by
  unfold readBE takeN
  rw [hin]
  have hlen : 4 ≤ (encBE4 w ++ rest).length := by simp [encBE4]
  rw [if_pos hlen]
  have ht : (encBE4 w ++ rest).take 4 = encBE4 w := by simp [encBE4]
  have hd : (encBE4 w ++ rest).drop 4 = rest := by simp [encBE4]
  rw [ht, hd]
  dsimp only
  rw [beNat_encBE4 hw]

theorem readUInt32_at {s : PState} {w : Nat} {rest : List Nat}
    (hin : s.input = encBE4 w ++ rest) (hw : w < 4294967296) :
    readUInt32 s = .ok (w, { s with input := rest }) :=
  readBE4_at hin hw

theorem readInt32_at {s : PState} {w : Nat} {rest : List Nat}
    (hin : s.input = encBE4 w ++ rest) (hw : w < 4294967296) :
    readInt32 s = .ok (toSigned 32 w, { s with input := rest }) := by
  unfold readInt32
  rw [readBE4_at hin hw]

theorem toSigned32_small {w : Nat} (hw : w < 2 ^ 31) : toSigned 32 w = (w : Int) := by
  unfold toSigned
  rw [if_pos]
  exact_mod_cast hw

/-- Resolution of a handle slot by `parseReference`: a filled slot yields
its value, a reserved (unfilled) slot yields the cycle marker. -/
def resolveSlot : Option JValue → JValue
  | none => .vstr cycleMarker
  | some v => v

/-- A back-reference with wire id `REF_ID_MASK + k` resolves to exactly the
k-th handle-table entry and consumes exactly its four bytes. -/
theorem parseReference_resolves (s : PState) (k : Nat) (rest : List Nat)
    (slot : Option JValue)
    (hin : s.input = encBE4 (0x7e0000 + k) ++ rest) (hk : 0x7e0000 + k < 2 ^ 31)
    (hslot : s.handles.get? k = some slot) :
    parseReference s = .ok (resolveSlot slot, { s with input := rest }) := by
  unfold parseReference
  rw [readInt32_at hin (lt_trans hk (by norm_num))]
  rw [toSigned32_small hk]
  obtain ⟨hklen, -⟩ := List.get?_eq_some.mp hslot
  dsimp only
  have hi : ((0x7e0000 + k : Nat) : Int) - 0x7e0000 = (k : Int) := by push_cast; ring
  rw [hi]
  have hc1 : (-1 : Int) < (k : Int) :=
    lt_of_lt_of_le (by norm_num) (Int.ofNat_nonneg k)
  have hc2 : (k : Int) < (({ s with input := rest } : PState).handles.length : Int) := by
    exact_mod_cast hklen
  rw [if_pos ⟨hc1, hc2⟩, Int.toNat_natCast]
  have hslot2 : ({ s with input := rest } : PState).handles.get? k = some slot := hslot
  rw [hslot2]
  cases slot <;> rfl

/-- C9 helper: a reference whose index is outside the handle table yields a
null value with no error. -/
theorem parseReference_out_of_range (s : PState) (w : Nat) (rest : List Nat)
    (hin : s.input = encBE4 w ++ rest) (hw : w < 2 ^ 31)
    (hout : ¬((-1 : Int) < (w : Int) - 0x7e0000 ∧
      (w : Int) - 0x7e0000 < (s.handles.length : Int))) :
    parseReference s = .ok (.vnull, { s with input := rest }) := by
  unfold parseReference
  rw [readInt32_at hin (lt_trans hw (by norm_num))]
  rw [toSigned32_small hw]
  dsimp only
  rw [if_neg hout]

/-- C9: for every Reference tag whose wire reference id, after subtracting
the fixed base offset, is negative or at least the handle-table length, the
parser returns a null value with no error, consuming only the four id
bytes. -/
theorem c9_reference_out_of_range_null (s : PState) (w : Nat) (rest : List Nat)
    (hin : s.input = encBE4 w ++ rest) (hw : w < 2 ^ 31)
    (hout : (w : Int) - 0x7e0000 < 0 ∨ ((s.handles.length : Int)) ≤ (w : Int) - 0x7e0000) :
    parseReference s = .ok (.vnull, { s with input := rest }) := by
  refine parseReference_out_of_range s w rest hin hw ?_
  intro hc
  rcases hout with hlt | hge
  · exact absurd hc.1 (by omega)
  · exact absurd hc.2 (by omega)

/-- C9 witness: a reference id pointing past the (empty) handle table
resolves to null without an error. -/
theorem c9_witness :
    parseReference { input := [0, 126, 0, 5], handles := [] } =
      .ok (.vnull, { input := [], handles := [] }) :=
  c9_reference_out_of_range_null { input := [0, 126, 0, 5], handles := [] }
    (0x7e0000 + 5) [] (by decide) (by decide) (by right; decide)

/-- C2: self-referential objects parse to the cycle sentinel.  First, a
reference to a reserved-but-unfilled handle slot resolves to the literal
cycle marker with no error; second, a complete parser step never changes a
pre-existing handle slot, so the slot reserved by `parseObject` before its
field data stays unfilled throughout the parsing of those fields; third,
the synthetic stream of an object of class AA whose only field `self`
back-references the object itself parses to completion with the field
holding the sentinel. -/
theorem c2_cycle_sentinel :
    (∀ (s : PState) (k : Nat) (rest : List Nat),
        s.input = encBE4 (0x7e0000 + k) ++ rest → 0x7e0000 + k < 2 ^ 31 →
        s.handles.get? k = some none →
        parseReference s = .ok (.vstr cycleMarker, { s with input := rest })) ∧
    (∀ (fuel mb : Nat) (req : Req) (s : PState) (r : PRet) (s2 : PState) (i : Nat),
        run fuel mb req s = .ok (r, s2) → i < s.handles.length →
        s2.handles.get? i = s.handles.get? i) ∧
    ParseSerializedObject selfRefStream =
      .ok (.vmap [(strBytes "self", .vstr cycleMarker)]) := by
  refine ⟨?_, ?_, rfl⟩
  · intro s k rest hin hk hslot
    exact parseReference_resolves s k rest none hin hk hslot
  · intro fuel mb req s r s2 i h hi
    exact handleExt_get (run_handleExt fuel mb req s r s2 h) hi

/-- C2 witness: the reserved-slot conjuncts instantiated concretely. -/
theorem c2_witness :
    parseReference { input := [0, 126, 0, 0], handles := [none] } =
      .ok (.vstr cycleMarker, { input := [], handles := [none] }) ∧
    (({ input := [], handles := [some JValue.vnull] } : PState).handles.get? 0 =
      ({ input := [0x70], handles := [some JValue.vnull] } : PState).handles.get? 0) :=
  ⟨c2_cycle_sentinel.1 { input := [0, 126, 0, 0], handles := [none] } 0 [] (by decide)
      (by decide) rfl,
   c2_cycle_sentinel.2.1 4 10 (.content none) { input := [0x70], handles := [some JValue.vnull] }
      (.v .vnull) { input := [], handles := [some JValue.vnull] } 0 rfl (by decide)⟩

/-- C3: the handle table is append-only throughout any parse (a successful
step only ever appends entries, never removes or reorders them), and a
back-reference whose wire id minus the fixed base offset 0x7e0000 is `k`
with `k` inside the table resolves to exactly the k-th registered entry. -/
theorem c3_append_only_and_kth_resolution :
    (∀ (fuel mb : Nat) (req : Req) (s : PState) (r : PRet) (s2 : PState),
        run fuel mb req s = .ok (r, s2) → ∃ ext, s2.handles = s.handles ++ ext) ∧
    (∀ (s : PState) (k : Nat) (rest : List Nat) (slot : Option JValue),
        s.input = encBE4 (0x7e0000 + k) ++ rest → 0x7e0000 + k < 2 ^ 31 →
        s.handles.get? k = some slot →
        parseReference s = .ok (resolveSlot slot, { s with input := rest })) := by
  refine ⟨?_, ?_⟩
  · intro fuel mb req s r s2 h
    exact run_handleExt fuel mb req s r s2 h
  · intro s k rest slot hin hk hslot
    exact parseReference_resolves s k rest slot hin hk hslot

/-- C3 witness: a concrete parser step appends a string handle to the
table, and a back-reference with id base+0 resolves to that entry. -/
theorem c3_witness :
    (∃ ext, ([some (JValue.vstr [65])] : List (Option JValue)) = [] ++ ext) ∧
    parseReference { input := [0, 126, 0, 0], handles := [some (JValue.vstr [65])] } =
      .ok (.vstr [65], { input := [], handles := [some (JValue.vstr [65])] }) :=
  ⟨c3_append_only_and_kth_resolution.1 4 10 (.content none)
      { input := [0x74, 0, 1, 65], handles := [] } (.v (.vstr [65]))
      { input := [], handles := [some (JValue.vstr [65])] } rfl,
   c3_append_only_and_kth_resolution.2 _ 0 [] (some (JValue.vstr [65])) (by decide)
      (by decide) rfl⟩

/-- C10: after the magic, the version and one complete top-level content
value, any unconsumed byte turns the parse into the
object-already-parsed error; success requires exact consumption. -/
theorem c10_exact_consumption (buf : List Nat) :
    (∀ (s1 s2 : PState) (v : JValue) (s3 : PState),
        magicStep { input := buf, handles := [] } = .ok s1 →
        versionStep s1 = .ok s2 →
        content (javaParseFuel buf) buf.length none s2 = .ok (v, s3) →
        s3.input ≠ [] →
        ParseSerializedObject buf = .error "object already parsed but there is more data") ∧
    (∀ v, ParseSerializedObject buf = .ok v →
        ∃ s1 s2 s3, magicStep { input := buf, handles := [] } = .ok s1 ∧
          versionStep s1 = .ok s2 ∧
          content (javaParseFuel buf) buf.length none s2 = .ok (v, s3) ∧ s3.input = []) := by
  constructor
  · intro s1 s2 v s3 h1 h2 h3 h4
    unfold ParseSerializedObject ParseSerializedObjectWithMax
    simp only [h1, h2, h3]
    rw [if_neg h4]
  · intro v h
    unfold ParseSerializedObject ParseSerializedObjectWithMax at h
    split at h
    · exact Except.noConfusion h
    · next s1 heq1 =>
      split at h
      · exact Except.noConfusion h
      · next s2 heq2 =>
        split at h
        · exact Except.noConfusion h
        · next v0 s3 heq3 =>
          split at h
          · next hemp =>
            cases h
            exact ⟨s1, s2, s3, heq1, heq2, heq3, hemp⟩
          · exact Except.noConfusion h

/-- C10 witness: a null-value stream with one trailing byte is rejected
with the more-data error. -/
theorem c10_witness :
    ParseSerializedObject [0xac, 0xed, 0x00, 0x05, 0x70, 0x00] =
      .error "object already parsed but there is more data" :=
  (c10_exact_consumption [0xac, 0xed, 0x00, 0x05, 0x70, 0x00]).1
    { input := [0x00, 0x05, 0x70, 0x00], handles := [] }
    { input := [0x70, 0x00], handles := [] } .vnull { input := [0x00], handles := [] }
    rfl rfl rfl (by decide)

/-- C4 counterexample: the int32 element count of an Array is not checked
against the configured maximum block size.  A parser configured with
maximum 8 parses an array declaring 9 elements to completion instead of
failing: the declared length (bytes 23..26 of the stream) is 9 > 8. -/
def arrayStream9 : List Nat :=
  [0xac, 0xed, 0x00, 0x05, 0x75, 0x72, 0x00, 0x02, 0x5b, 0x42,
   1, 2, 3, 4, 5, 6, 7, 8, 0x02, 0x00, 0x00, 0x78, 0x70,
   0x00, 0x00, 0x00, 0x09, 1, 2, 3, 4, 5, 6, 7, 8, 9]

/-- C4 does not hold as stated: an Array element count above the
configured maximum is no parse failure. -/
theorem c4_counterexample :
    ParseSerializedObjectWithMax 8 arrayStream9 =
      .ok (.varr [.vi8 1, .vi8 2, .vi8 3, .vi8 4, .vi8 5, .vi8 6, .vi8 7, .vi8 8, .vi8 9]) ∧
    (arrayStream9.drop 23).take 4 = [0, 0, 0, 9] ∧ 9 > 8 :=
  ⟨rfl, rfl, by decide⟩

/-- C4 as amended: the guard holds for BlockDataLong segments and for
every length-prefixed string read; a declared length above the configured
maximum fails with the block-size error before any bytes of that length
are consumed. -/
theorem c4_guarded_reads :
    (∀ (mb : Nat) (s : PState) (w : Nat) (rest : List Nat),
        s.input = encBE4 w ++ rest → w < 2 ^ 32 → w > mb →
        parseBlockDataLong mb s = .error { eof := false, msg := blockSizeMsg }) ∧
    (∀ (mb cnt : Nat) (asHex : Bool) (s : PState), cnt > mb →
        readString mb cnt asHex s = .error { eof := false, msg := blockSizeMsg }) := by
  constructor
  · intro mb s w rest hin hw hgt
    unfold parseBlockDataLong
    rw [readUInt32_at hin hw]
    dsimp only
    rw [if_pos hgt]
  · intro mb cnt asHex s hgt
    unfold readString
    rw [if_pos hgt]

/-- C4 witness: a BlockDataLong declaring 100 bytes against a maximum of 4
fails with the block-size error, as does a 100-byte string read. -/
theorem c4_witness :
    parseBlockDataLong 4 { input := [0, 0, 0, 100], handles := [] } =
      .error { eof := false, msg := blockSizeMsg } ∧
    readString 4 100 false { input := [], handles := [] } =
      .error { eof := false, msg := blockSizeMsg } :=
  ⟨c4_guarded_reads.1 4 { input := [0, 0, 0, 100], handles := [] } 100 [] (by decide)
      (by decide) (by decide),
   c4_guarded_reads.2 4 100 false { input := [], handles := [] } (by decide)⟩

/-!
## Claim-level theorems for the payload deserializer
-/

/-- A deserializer environment in which every external collaborator is
absent or fails (nil service pointers in Go). -/
def nilEnv : DeserializerEnv :=
  { schemaSvc := false
    avroDecode := fun _ _ => none
    protoSvc := none
    msgPackSvc := none
    msgpackDecode := fun _ => none
    smileDecode := fun _ => none
    xmlConvert := fun _ => none
    offsetCommitKeyRead := fun _ => none
    offsetCommitValueRead := fun _ => none
    groupMetadataKeyRead := fun _ => none
    groupMetadataValueRead := fun _ => none
    jsonMarshal := fun _ => none }

/-- C6: a null payload yields encoding none with the null flag set, while
a zero-length non-null payload yields the same encoding with the null flag
clear and size zero; the two results are never equal. -/
theorem c6_null_vs_empty (env : DeserializerEnv) (t : String) (rt : RecordPropertyType) :
    (deserializePayload env none t rt).recognizedEncoding = .none ∧
    (deserializePayload env none t rt).isPayloadNull = true ∧
    (deserializePayload env (some []) t rt).recognizedEncoding = .none ∧
    (deserializePayload env (some []) t rt).isPayloadNull = false ∧
    (deserializePayload env (some []) t rt).size = 0 ∧
    deserializePayload env none t rt ≠ deserializePayload env (some []) t rt := by
  refine ⟨rfl, rfl, rfl, rfl, rfl, ?_⟩
  intro h
  have h2 : (true : Bool) = false := congrArg DeserializedPayload.isPayloadNull h
  exact Bool.noConfusion h2

/-- C6 witness: concrete instantiation of the null/empty distinction. -/
theorem c6_witness :
    (deserializePayload nilEnv none "t" .value).recognizedEncoding = .none ∧
    (deserializePayload nilEnv none "t" .value).isPayloadNull = true ∧
    (deserializePayload nilEnv (some []) "t" .value).recognizedEncoding = .none ∧
    (deserializePayload nilEnv (some []) "t" .value).isPayloadNull = false ∧
    (deserializePayload nilEnv (some []) "t" .value).size = 0 ∧
    deserializePayload nilEnv none "t" .value ≠ deserializePayload nilEnv (some []) "t" .value :=
  c6_null_vs_empty nilEnv "t" .value

/-- No probe of the chain recognizes the payload: the defining conditions
of the final fallback of `deserializePayload`. -/
def noProbeMatches (env : DeserializerEnv) (payload : Option (List Nat))
    (topicName : String) (rt : RecordPropertyType) : Prop :=
  (payload.getD []).length ≠ 0 ∧
  (trimLeftWs (payload.getD [])).length ≠ 0 ∧
  probeJSON (payload.getD []) (trimLeftWs (payload.getD [])) payload.isNone = none ∧
  probeSchemaJSON env (payload.getD []) payload.isNone = none ∧
  probeXML env (payload.getD []) (trimLeftWs (payload.getD [])) payload.isNone = none ∧
  probeAvro env (payload.getD []) payload.isNone = none ∧
  probeProto env (payload.getD []) topicName rt payload.isNone = none ∧
  probeMsgPack env (payload.getD []) topicName payload.isNone = none ∧
  probeSmile env (payload.getD []) payload.isNone = none ∧
  utf8Valid (payload.getD []) = false

/-- C1: `deserializePayload` is a total function (it cannot return an
error by construction), and any input recognized by no probe resolves to
the binary fallback payload. -/
theorem c1_binary_fallback (env : DeserializerEnv) (payload : Option (List Nat))
    (topicName : String) (rt : RecordPropertyType)
    (h : noProbeMatches env payload topicName rt) :
    deserializePayload env payload topicName rt =
      mkPayload (payload.getD []) .binary payload.isNone 0 (payload.getD []).length := by
  obtain ⟨h1, h2, h3, h4, h5, h6, h7, h8, h9, h10⟩ := h
  unfold deserializePayload
  dsimp only
  rw [if_neg h1, if_neg h2, h3, h4, h5, h6, h7, h8, h9, h10]
  rfl

/-- C1 witness: a single invalid-UTF-8 byte with no collaborators lands on
the binary fallback. -/
theorem c1_witness :
    noProbeMatches nilEnv (some [0xff]) "t" .value ∧
    deserializePayload nilEnv (some [0xff]) "t" .value =
      mkPayload [0xff] .binary false 0 1 :=
  ⟨⟨by decide, by decide, rfl, rfl, rfl, rfl, rfl, rfl, rfl, by decide⟩,
   c1_binary_fallback nilEnv (some [0xff]) "t" .value
     ⟨by decide, by decide, rfl, rfl, rfl, rfl, rfl, rfl, rfl, by decide⟩⟩

theorem trimLeftWs_idem (b : List Nat) : trimLeftWs (trimLeftWs b) = trimLeftWs b := by
  induction b with
  | nil => rfl
  | cons x r ih =>
    by_cases hx : isWsByte x = true
    · simp [trimLeftWs, hx, ih]
    · simp [trimLeftWs, hx]

/-- The JSON parser is invariant under trimming the deserializer whitespace
cutset from the front of the input. -/
theorem jsonParse_trimLeftWs (b : List Nat) : jsonParse (trimLeftWs b) = jsonParse b := by
  unfold jsonParse
  rw [trimLeftWs_idem]
  have hfuel : 2 * (trimLeftWs b).length + 8 = (2 * (trimLeftWs b).length + 7) + 1 := rfl
  have hrun : jrun (2 * (trimLeftWs b).length + 8) .val (trimLeftWs b) =
      jrun (2 * (trimLeftWs b).length + 8) .val b := by
    rw [hfuel]
    show jrun (_ + 1) .val (trimLeftWs b) = jrun (_ + 1) .val b
    unfold jrun
    rw [trimLeftWs_idem]
  rw [hrun]

/-- C5 counterexample: the byte string 123 is a well-formed JSON document
(a number), yet the deserializer tags it text, not json. -/
theorem c5_counterexample :
    jsonParse (strBytes "123") = some (.jnum (strBytes "123")) ∧
    (deserializePayload nilEnv (some (strBytes "123")) "t" .value).recognizedEncoding =
      .text ∧
    MessageEncoding.text ≠ MessageEncoding.json :=
  ⟨rfl, rfl, by decide⟩

/-- C5 as amended: for every well-formed JSON byte string whose first
non-whitespace byte is an opening bracket or brace, the result has
encoding json, its normalized payload is the left-trimmed input, and that
normalized payload re-parses to the same structure as the original. -/
theorem c5_json_round_trip (env : DeserializerEnv) (topicName : String)
    (rt : RecordPropertyType) (b : List Nat) (v : Jv)
    (hjson : jsonParse b = some v)
    (hhead : (trimLeftWs b).head? = some 91 ∨ (trimLeftWs b).head? = some 123) :
    deserializePayload env (some b) topicName rt =
      mkPayload (trimLeftWs b) .json false 0 b.length ∧
    jsonParse (trimLeftWs b) = some v := by
  have htrim : (trimLeftWs b).length ≠ 0 := by
    rcases hhead with h | h <;>
      (cases ht : trimLeftWs b with
       | nil => rw [ht] at h; exact Option.noConfusion h
       | cons x r => simp [ht])
  have hb : b.length ≠ 0 := by
    intro hb0
    have : b = [] := List.length_eq_zero.mp hb0
    rw [this] at htrim
    exact htrim rfl
  have hprobe : probeJSON b (trimLeftWs b) false = some (mkPayload (trimLeftWs b) .json false 0 b.length) := by
    unfold probeJSON
    rw [if_pos hhead, hjson]
  constructor
  · unfold deserializePayload
    dsimp only
    simp only [Option.getD_some, Option.isNone_some]
    rw [if_neg hb, if_neg htrim]
    rw [hprobe]
  · rw [jsonParse_trimLeftWs, hjson]

/-- C5 witness: a concrete JSON object round-trips. -/
theorem c5_witness :
    deserializePayload nilEnv (some ([32, 123, 125])) "t" .value =
      mkPayload [123, 125] .json false 0 3 ∧
    jsonParse (trimLeftWs [32, 123, 125]) = some (.jobj []) :=
  c5_json_round_trip nilEnv "t" .value [32, 123, 125] (.jobj []) rfl (by right; rfl)

/-- A __consumer_offsets record whose key declares message version 99. -/
def c7Record : KRecord :=
  { key := some [0, 99], value := none, headers := [], topic := "__consumer_offsets" }

/-- C7: on the __consumer_offsets topic, a key whose leading big-endian
int16 version is none of 0, 1 or 2 makes the consumer-offsets decoder
return a hard error naming that version, and the orchestrator then runs
the generic probe chain on the same record instead of surfacing the
error. -/
theorem c7_unknown_version_falls_back (env : DeserializerEnv) (record : KRecord)
    (pj : Bool) (htopic : record.topic = "__consumer_offsets")
    (hlen : ¬ (record.key.getD []).length < 2)
    (hv0 : toSigned 16 (beNat ((record.key.getD []).take 2)) ≠ 0)
    (hv1 : toSigned 16 (beNat ((record.key.getD []).take 2)) ≠ 1)
    (hv2 : toSigned 16 (beNat ((record.key.getD []).take 2)) ≠ 2) :
    deserializeConsumerOffset env record =
      .error ("unknown message version '" ++
        intStr (toSigned 16 (beNat ((record.key.getD []).take 2))) ++ "' detected") ∧
    DeserializeRecord env record pj = deserializeRecordRest env record pj := by
  have herr : deserializeConsumerOffset env record =
      .error ("unknown message version '" ++
        intStr (toSigned 16 (beNat ((record.key.getD []).take 2))) ++ "' detected") := by
    unfold deserializeConsumerOffset
    dsimp only
    rw [if_neg hlen, if_neg (fun h => h.elim hv0 hv1), if_neg hv2]
  refine ⟨herr, ?_⟩
  unfold DeserializeRecord
  rw [if_pos htopic, herr]

/-- C7 witness: version 99 errors and falls back to the generic chain. -/
theorem c7_witness :
    deserializeConsumerOffset nilEnv c7Record =
      .error "unknown message version '99' detected" ∧
    DeserializeRecord nilEnv c7Record false = deserializeRecordRest nilEnv c7Record false := by
  have h := c7_unknown_version_falls_back nilEnv c7Record false rfl
    (by decide) (by decide) (by decide) (by decide)
  exact ⟨h.1.trans (by rfl), h.2⟩

/-- `n + 1` nested arrays whose innermost array is empty. -/
def nestEmptyGo : Nat → GoVal
  | 0 => .garr []
  | n + 1 => .garr [nestEmptyGo n]

/-- C8 counterexample: with maxDepth 7, a value nested 10 containers deep
truncates to seven nested arrays whose level-7 container is already empty;
no container exists at level 8, so the data at level 7 is not intact and
there are no containers at levels 8 to 10 to be empty. -/
theorem c8_counterexample :
    truncateObject (chainGo 10) 0 maxObjectNodeDepth maxStringLength = nestEmptyGo 6 ∧
    truncateObject (chainGo 10) 0 maxObjectNodeDepth maxStringLength ≠ nestEmptyGo 7 ∧
    peelGo 6 (nestEmptyGo 6) = some (.garr []) ∧
    peelGo 7 (nestEmptyGo 6) = none := by
  refine ⟨rfl, ?_, rfl, rfl⟩
  intro h
  have h0 : truncateObject (chainGo 10) 0 maxObjectNodeDepth maxStringLength =
      nestEmptyGo 6 := rfl
  rw [h0] at h
  have h2 := congrArg (peelGo 7) h
  have h3 : peelGo 7 (nestEmptyGo 6) = none := rfl
  have h4 : peelGo 7 (nestEmptyGo 7) = some (.garr []) := rfl
  rw [h3, h4] at h2
  exact Option.noConfusion h2

/-- C8 as amended: with maxDepth 7 and maxStringLength 4000, any string
longer than 4000 bytes is cut to exactly its first 4000 bytes; any
container reached at depth at least 6 is emptied (so the level-7 container
of a nesting is emptied and nothing deeper survives); and the 10-deep
chain truncates to intact containers at levels 1 to 6 with an empty array
at level 7. -/
theorem c8_truncation :
    (∀ s d, maxStringLength < s.length →
      truncateObject (.gstr s) d maxObjectNodeDepth maxStringLength =
        .gstr (s.take maxStringLength)) ∧
    (∀ xs d, maxObjectNodeDepth ≤ d + 1 →
      truncateObject (.garr xs) d maxObjectNodeDepth maxStringLength = .garr []) ∧
    truncateObject (chainGo 10) 0 maxObjectNodeDepth maxStringLength = nestEmptyGo 6 := by
  refine ⟨?_, ?_, rfl⟩
  · intro s d hs
    unfold truncateObject
    rw [if_neg (by decide : ¬ maxObjectNodeDepth ≤ 0)]
    dsimp only
    rw [if_pos hs]
  · intro xs d hd
    unfold truncateObject
    rw [if_neg (by decide : ¬ maxObjectNodeDepth ≤ 0)]
    dsimp only
    rw [if_pos hd]

/-- C8 witness: a 4001-byte string is cut to 4000 bytes, and an array met
at depth 6 is emptied. -/
theorem c8_witness :
    truncateObject (.gstr (List.replicate 4001 97)) 0 maxObjectNodeDepth maxStringLength =
      .gstr (List.replicate 4000 97) ∧
    truncateObject (.garr [.gstr [120]]) 6 maxObjectNodeDepth maxStringLength = .garr [] := by
  refine ⟨?_, c8_truncation.2.1 [.gstr [120]] 6 (by decide)⟩
  have h := c8_truncation.1 (List.replicate 4001 97) 0
    (by rw [List.length_replicate]; decide)
  rw [h, List.take_replicate]
  have hm : min maxStringLength 4001 = 4000 := by decide
  rw [hm]
